import Mathlib

/-!
# Verification of the bronze/silver ETL backend (fenix-forecast-input)

Shallow embedding of the bronze→silver reconciliation logic of the
FastAPI data-lake backend: silver-table rebuild (load / transform /
dedup / save), the cascading building delete, the delivery-point
creation route, and the degree-days gap filler
(`ensure_degreedays_for_station`).

Modelling conventions:
* pandas DataFrames are lists of typed row structures; columns not
  inspected by the verified code paths are collapsed into an opaque
  `rest : String` field;
* `received_at` timestamps (after `pd.to_datetime(..., errors="coerce")`)
  are modelled as `Option Nat` (`none` = NaT), pandas sorts NaT last;
* nullable columns are `Option` types; Python `None` is `none`;
* storage and the weather provider are external collaborators: they are
  modelled as environment fields returning `Except String` values, a
  `.error msg` being a raised Python exception with message `msg`;
* Python decimal rendering (`str`, `f"{n:03d}"`, `strftime("%Y-%m")`)
  and parsing (`int`) are modelled by `decDigits` / `parseDigits` below,
  and `str.split` by `splitOnChar` on the underlying character list.
-/

/-! ## Decimal rendering and parsing (models Python str(n) / int(s)) -/

/-- Fuel-indexed decimal rendering (structural recursion so that
concrete values compute by kernel reduction). -/
def decDigitsAux : Nat → Nat → List Char
  | 0, _ => []
  | fuel + 1, n =>
    if n < 10 then [Nat.digitChar n]
    else decDigitsAux fuel (n / 10) ++ [Nat.digitChar (n % 10)]

/-- Big-endian decimal digit list of a natural number; models Python
`str(n)` for a non-negative integer. -/
def decDigits (n : Nat) : List Char := decDigitsAux (n + 1) n

lemma decDigitsAux_congr : ∀ f1 f2 n, n < f1 → n < f2 →
    decDigitsAux f1 n = decDigitsAux f2 n := by
  intro f1
  induction f1 with
  | zero => omega
  | succ g ih =>
    intro f2 n h1 h2
    cases f2 with
    | zero => omega
    | succ h =>
      rw [decDigitsAux, decDigitsAux]
      by_cases hn : n < 10
      · rw [if_pos hn, if_pos hn]
      · rw [if_neg hn, if_neg hn]
        have hd : n / 10 < n := Nat.div_lt_self (by omega) (by omega)
        rw [ih h (n / 10) (by omega) (by omega)]

/-- The recursion equation of `decDigits`. -/
lemma decDigits_step (n : Nat) :
    decDigits n = if n < 10 then [Nat.digitChar n]
      else decDigits (n / 10) ++ [Nat.digitChar (n % 10)] := by
  show decDigitsAux (n + 1) n = _
  rw [decDigitsAux]
  by_cases hn : n < 10
  · rw [if_pos hn, if_pos hn]
  · rw [if_neg hn, if_neg hn]
    have hd : n / 10 < n := Nat.div_lt_self (by omega) (by omega)
    rw [decDigitsAux_congr n (n / 10 + 1) (n / 10) (by omega) (by omega)]
    rfl

/-- Numeric value of a decimal digit character. -/
def digVal (c : Char) : Nat := c.toNat - Char.toNat '0'

/-- Parse a non-empty all-digit character list as a natural number;
models Python `int(s)` on the zero-padded digit strings produced by
this code base (signs, whitespace and underscores never occur here). -/
def parseDigits (cs : List Char) : Option Nat :=
  if cs.isEmpty then none
  else if cs.all Char.isDigit then some (cs.foldl (fun a c => a * 10 + digVal c) 0)
  else none

/-- Left-pad a digit list with zeros to width `k`; models `%Y` / `%m` /
`{...:03d}` zero padding. -/
def padZeros (k : Nat) (cs : List Char) : List Char :=
  List.replicate (k - cs.length) '0' ++ cs

/-- Split a character list at every occurrence of `sep`; models Python
`str.split(sep)` (so the empty string yields `[[]]`). -/
def splitOnChar (sep : Char) : List Char → List (List Char)
  | [] => [[]]
  | c :: cs =>
    if c = sep then [] :: splitOnChar sep cs
    else
      match splitOnChar sep cs with
      | [] => [[c]]
      | h :: t => (c :: h) :: t

lemma digitChar_isDigit {d : Nat} (h : d < 10) : (Nat.digitChar d).isDigit = true := by
  interval_cases d <;> decide

lemma digVal_digitChar {d : Nat} (h : d < 10) : digVal (Nat.digitChar d) = d := by
  interval_cases d <;> decide

lemma decDigits_ne_nil (n : Nat) : decDigits n ≠ [] := by
  rw [decDigits_step]
  split
  · simp
  · simp

lemma decDigits_all_digit (n : Nat) : ∀ c ∈ decDigits n, c.isDigit = true := by
  induction n using Nat.strong_induction_on with
  | _ n ih =>
    rw [decDigits_step]
    split
    · next h => simpa using digitChar_isDigit h
    · next h =>
      intro c hc
      rcases List.mem_append.mp hc with hc | hc
      · exact ih (n / 10) (Nat.div_lt_self (by omega) (by omega)) c hc
      · rcases List.mem_singleton.mp hc with rfl
        exact digitChar_isDigit (Nat.mod_lt _ (by omega))

lemma foldl_decDigits (n : Nat) :
    ∀ a : Nat, (decDigits n).foldl (fun a c => a * 10 + digVal c) a
      = a * 10 ^ (decDigits n).length + n := by
  induction n using Nat.strong_induction_on with
  | _ n ih =>
    intro a
    rw [decDigits_step]
    split
    · next h => simp [digVal_digitChar h]
    · next h =>
      rw [List.foldl_append, List.length_append]
      rw [ih (n / 10) (Nat.div_lt_self (by omega) (by omega))]
      simp only [List.foldl_cons, List.foldl_nil, List.length_singleton]
      rw [digVal_digitChar (Nat.mod_lt _ (by omega))]
      rw [pow_succ]
      have hdm : 10 * (n / 10) + n % 10 = n := Nat.div_add_mod n 10
      ring_nf
      omega

lemma foldl_replicate_zero (k : Nat) :
    (List.replicate k '0').foldl (fun a c => a * 10 + digVal c) 0 = 0 := by
  induction k with
  | zero => rfl
  | succ k ih => simpa [List.replicate_succ, digVal] using ih

/-- Round trip: parsing the zero-padded decimal rendering of `n`
recovers `n`. -/
lemma parseDigits_padZeros_decDigits (k n : Nat) :
    parseDigits (padZeros k (decDigits n)) = some n := by
  unfold parseDigits padZeros
  have hne : ¬(List.replicate (k - (decDigits n).length) '0' ++ decDigits n).isEmpty := by
    simp [List.isEmpty_iff, decDigits_ne_nil n]
  rw [if_neg hne]
  have hall : (List.replicate (k - (decDigits n).length) '0' ++ decDigits n).all Char.isDigit := by
    simp only [List.all_append, Bool.and_eq_true]
    refine ⟨?_, ?_⟩
    · simp only [List.all_eq_true]
      intro c hc
      rcases List.eq_of_mem_replicate hc with rfl
      decide
    · simp only [List.all_eq_true]
      exact decDigits_all_digit n
  rw [if_pos hall, List.foldl_append, foldl_replicate_zero, foldl_decDigits]
  simp

lemma splitOnChar_of_no_sep {sep : Char} {l : List Char}
    (h : ∀ c ∈ l, c ≠ sep) : splitOnChar sep l = [l] := by
  induction l with
  | nil => rfl
  | cons c cs ih =>
    have hc : c ≠ sep := h c (List.mem_cons_self ..)
    rw [splitOnChar, if_neg hc, ih (fun x hx => h x (List.mem_cons_of_mem _ hx))]

lemma splitOnChar_append_sep {sep : Char} {l1 l2 : List Char}
    (h1 : ∀ c ∈ l1, c ≠ sep) (h2 : ∀ c ∈ l2, c ≠ sep) :
    splitOnChar sep (l1 ++ sep :: l2) = [l1, l2] := by
  induction l1 with
  | nil => simp [splitOnChar, splitOnChar_of_no_sep h2]
  | cons c cs ih =>
    have hc : c ≠ sep := h1 c (List.mem_cons_self ..)
    have ih2 := ih (fun x hx => h1 x (List.mem_cons_of_mem _ hx))
    rw [List.cons_append, splitOnChar, if_neg hc, ih2]

/-! ## Column comparators

Boolean "less or equal" comparators mirroring how `pandas.sort_values`
orders the columns used by the dedup jobs: nulls (`None` / NaT) sort
last (`na_position="last"`), strings by code-point lexicographic order,
numbers numerically. -/

/-- Order on a nullable timestamp column: NaT sorts last. -/
def optNatLe : Option Nat → Option Nat → Bool
  | _, none => true
  | none, some _ => false
  | some a, some b => decide (a ≤ b)

/-- Order on a nullable numeric column: NaN sorts last. -/
def optIntLe : Option Int → Option Int → Bool
  | _, none => true
  | none, some _ => false
  | some a, some b => decide (a ≤ b)

/-- Code-point lexicographic order on character lists (Python string
comparison). -/
def listCharLe : List Char → List Char → Bool
  | [], _ => true
  | _ :: _, [] => false
  | a :: as, b :: bs =>
    if a = b then listCharLe as bs
    else decide (a < b)

/-- Order on a string column. -/
def strLe (s t : String) : Bool := listCharLe s.data t.data

/-- Order on a nullable string column: nulls sort last. -/
def optStrLe : Option String → Option String → Bool
  | _, none => true
  | none, some _ => false
  | some a, some b => strLe a b

/-- Lexicographic combination of two column orders, as used by
`sort_values` on several columns: compare the first column, break ties
with the second. -/
def lexLe {K β : Type} [DecidableEq K] (le1 : K → K → Bool) (le2 : β → β → Bool)
    (p q : K × β) : Bool :=
  if p.1 = q.1 then le2 p.2 q.2 else le1 p.1 q.1

section ComparatorLemmas

lemma optNatLe_total (a b : Option Nat) : optNatLe a b = true ∨ optNatLe b a = true := by
  cases a <;> cases b <;> simp [optNatLe] <;> omega

lemma optNatLe_trans {a b c : Option Nat} (h1 : optNatLe a b = true)
    (h2 : optNatLe b c = true) : optNatLe a c = true := by
  cases a <;> cases b <;> cases c <;> simp_all [optNatLe] <;> omega

lemma optIntLe_total (a b : Option Int) : optIntLe a b = true ∨ optIntLe b a = true := by
  cases a <;> cases b <;> simp [optIntLe] <;> omega

lemma optIntLe_trans {a b c : Option Int} (h1 : optIntLe a b = true)
    (h2 : optIntLe b c = true) : optIntLe a c = true := by
  cases a <;> cases b <;> cases c <;> simp_all [optIntLe] <;> omega

lemma optIntLe_antisymm {a b : Option Int} (h1 : optIntLe a b = true)
    (h2 : optIntLe b a = true) : a = b := by
  cases a <;> cases b <;> simp_all [optIntLe]
  omega

lemma listCharLe_total (a b : List Char) : listCharLe a b = true ∨ listCharLe b a = true := by
  induction a generalizing b with
  | nil => left; rfl
  | cons x xs ih =>
    cases b with
    | nil => right; rfl
    | cons y ys =>
      by_cases hxy : x = y
      · subst hxy
        simpa [listCharLe] using ih ys
      · have hyx : ¬y = x := fun h => hxy h.symm
        rcases lt_trichotomy x y with h | h | h
        · left; simp [listCharLe, hxy, h]
        · exact absurd h hxy
        · right; simp [listCharLe, hyx, h]

lemma listCharLe_trans {a b c : List Char} (h1 : listCharLe a b = true)
    (h2 : listCharLe b c = true) : listCharLe a c = true := by
  induction a generalizing b c with
  | nil => rfl
  | cons x xs ih =>
    cases b with
    | nil => simp [listCharLe] at h1
    | cons y ys =>
      cases c with
      | nil => simp [listCharLe] at h2
      | cons z zs =>
        by_cases hxy : x = y <;> by_cases hyz : y = z
        · subst hxy; subst hyz
          simp only [listCharLe, if_pos rfl] at h1 h2 ⊢
          exact ih h1 h2
        · subst hxy
          simp only [listCharLe, if_pos rfl] at h1
          simpa [listCharLe, hyz] using h2
        · subst hyz
          simp only [listCharLe, if_pos rfl] at h2
          simpa [listCharLe, hxy] using h1
        · simp only [listCharLe, if_neg hxy] at h1
          simp only [listCharLe, if_neg hyz] at h2
          have hlt : x < z := lt_trans (of_decide_eq_true h1) (of_decide_eq_true h2)
          have hxz : x ≠ z := ne_of_lt hlt
          simp [listCharLe, hxz, hlt]

lemma listCharLe_antisymm {a b : List Char} (h1 : listCharLe a b = true)
    (h2 : listCharLe b a = true) : a = b := by
  induction a generalizing b with
  | nil =>
    cases b with
    | nil => rfl
    | cons y ys => simp [listCharLe] at h2
  | cons x xs ih =>
    cases b with
    | nil => simp [listCharLe] at h1
    | cons y ys =>
      by_cases hxy : x = y
      · subst hxy
        simp only [listCharLe, if_pos rfl] at h1 h2
        rw [ih h1 h2]
      · have hyx : ¬y = x := fun h => hxy h.symm
        simp only [listCharLe, if_neg hxy] at h1
        simp only [listCharLe, if_neg hyx] at h2
        exact absurd (lt_trans (of_decide_eq_true h1) (of_decide_eq_true h2))
          (lt_irrefl x)

lemma strLe_total (a b : String) : strLe a b = true ∨ strLe b a = true :=
  listCharLe_total a.data b.data

lemma strLe_trans {a b c : String} (h1 : strLe a b = true)
    (h2 : strLe b c = true) : strLe a c = true :=
  listCharLe_trans h1 h2

lemma strLe_antisymm {a b : String} (h1 : strLe a b = true)
    (h2 : strLe b a = true) : a = b := by
  cases a; cases b
  exact congrArg String.mk (listCharLe_antisymm h1 h2)

lemma optStrLe_total (a b : Option String) : optStrLe a b = true ∨ optStrLe b a = true := by
  cases a <;> cases b <;> simp [optStrLe]
  exact strLe_total _ _

lemma optStrLe_trans {a b c : Option String} (h1 : optStrLe a b = true)
    (h2 : optStrLe b c = true) : optStrLe a c = true := by
  cases a <;> cases b <;> cases c <;> simp_all [optStrLe]
  exact strLe_trans h1 h2

lemma optStrLe_antisymm {a b : Option String} (h1 : optStrLe a b = true)
    (h2 : optStrLe b a = true) : a = b := by
  cases a <;> cases b <;> simp_all [optStrLe]
  exact strLe_antisymm h1 h2

variable {K β : Type} [DecidableEq K] {le1 : K → K → Bool} {le2 : β → β → Bool}

lemma lexLe_total (h1 : ∀ a b, le1 a b = true ∨ le1 b a = true)
    (h2 : ∀ x y, le2 x y = true ∨ le2 y x = true) :
    ∀ p q, lexLe le1 le2 p q = true ∨ lexLe le1 le2 q p = true := by
  rintro ⟨a, x⟩ ⟨b, y⟩
  unfold lexLe
  by_cases hab : a = b
  · subst hab
    simpa using h2 x y
  · have hba : ¬b = a := fun h => hab h.symm
    simp only [if_neg hab, if_neg hba]
    exact h1 a b

lemma lexLe_trans (h1t : ∀ a b c, le1 a b = true → le1 b c = true → le1 a c = true)
    (h1a : ∀ a b, le1 a b = true → le1 b a = true → a = b)
    (h2t : ∀ x y z, le2 x y = true → le2 y z = true → le2 x z = true) :
    ∀ {p q r}, lexLe le1 le2 p q = true → lexLe le1 le2 q r = true →
      lexLe le1 le2 p r = true := by
  rintro ⟨a, x⟩ ⟨b, y⟩ ⟨c, z⟩ hpq hqr
  unfold lexLe at hpq hqr ⊢
  by_cases hab : a = b <;> by_cases hbc : b = c
  · subst hab; subst hbc
    simp only [if_pos rfl] at hpq hqr ⊢
    exact h2t _ _ _ hpq hqr
  · subst hab
    simp only [if_neg hbc] at hqr
    simp only [if_neg hbc]
    exact hqr
  · subst hbc
    simp only [if_neg hab] at hpq
    simp only [if_neg hab]
    exact hpq
  · simp only [if_neg hab] at hpq
    simp only [if_neg hbc] at hqr
    have hac : ¬a = c := by
      intro h
      subst h
      exact hab (h1a _ _ hpq hqr)
    simp only [if_neg hac]
    exact h1t _ _ _ hpq hqr

lemma lexLe_antisymm (h1a : ∀ a b, le1 a b = true → le1 b a = true → a = b)
    (h2a : ∀ x y, le2 x y = true → le2 y x = true → x = y) :
    ∀ {p q}, lexLe le1 le2 p q = true → lexLe le1 le2 q p = true → p = q := by
  rintro ⟨a, x⟩ ⟨b, y⟩ hpq hqp
  unfold lexLe at hpq hqp
  by_cases hab : a = b
  · subst hab
    simp only [if_pos rfl] at hpq hqp
    rw [h2a _ _ hpq hqp]
  · have hba : ¬b = a := fun h => hab h.symm
    simp only [if_neg hab] at hpq
    simp only [if_neg hba] at hqp
    exact absurd (h1a _ _ hpq hqp) hab

end ComparatorLemmas

/-! ## Generic sort + keep-last dedup

`insSort le` models `DataFrame.sort_values` (a stable sort on the given
comparator) and `dropDupKeepLast key` models
`DataFrame.drop_duplicates(subset=key, keep="last")`: a row is kept iff
no later row has the same key. `sortDedup` is their composition — the
dedup step shared by every silver transform. -/

/-- Ordered insertion for `insSort`. -/
def insertOrd {α : Type} (le : α → α → Bool) (a : α) : List α → List α
  | [] => [a]
  | b :: l => if le a b then a :: b :: l else b :: insertOrd le a l

/-- Insertion sort by a boolean comparator. -/
def insSort {α : Type} (le : α → α → Bool) : List α → List α
  | [] => []
  | a :: l => insertOrd le a (insSort le l)

/-- `drop_duplicates(subset=key, keep="last")`: keep a row iff no later
row shares its key. -/
def dropDupKeepLast {α K : Type} [DecidableEq K] (key : α → K) : List α → List α
  | [] => []
  | x :: xs =>
    if xs.any (fun y => decide (key y = key x)) then dropDupKeepLast key xs
    else x :: dropDupKeepLast key xs

/-- The dedup pipeline of each silver transform: sort by
(business key, received_at) ascending, then drop duplicate business
keys keeping the last row. -/
def sortDedup {α K : Type} [DecidableEq K] (key : α → K) (le : α → α → Bool)
    (l : List α) : List α :=
  dropDupKeepLast key (insSort le l)

section SortDedupLemmas

variable {α K : Type} [DecidableEq K] {le : α → α → Bool} {key : α → K}

lemma insertOrd_perm (a : α) (l : List α) : List.Perm (insertOrd le a l) (a :: l) := by
  induction l with
  | nil => exact List.Perm.refl _
  | cons b t ih =>
    rw [insertOrd]
    split
    · exact List.Perm.refl _
    · exact (List.Perm.cons b ih).trans (List.Perm.swap a b t)

lemma insSort_perm (l : List α) : List.Perm (insSort le l) l := by
  induction l with
  | nil => exact List.Perm.refl _
  | cons a t ih =>
    exact (insertOrd_perm a (insSort le t)).trans (List.Perm.cons a ih)

lemma mem_insertOrd {a x : α} {l : List α} :
    x ∈ insertOrd le a l ↔ x = a ∨ x ∈ l := by
  have hp : List.Perm (insertOrd le a l) (a :: l) := insertOrd_perm a l
  rw [hp.mem_iff]
  simp

lemma pairwise_insertOrd
    (htot : ∀ a b, le a b = true ∨ le b a = true)
    (htrans : ∀ a b c, le a b = true → le b c = true → le a c = true)
    (a : α) {l : List α} (hl : l.Pairwise (fun x y => le x y = true)) :
    (insertOrd le a l).Pairwise (fun x y => le x y = true) := by
  induction l with
  | nil => simp [insertOrd]
  | cons b t ih =>
    rw [insertOrd]
    rcases List.pairwise_cons.mp hl with ⟨hb, ht⟩
    split
    · next hab =>
      refine List.pairwise_cons.mpr ⟨?_, hl⟩
      intro x hx
      rcases List.mem_cons.mp hx with rfl | hx
      · exact hab
      · exact htrans _ _ _ hab (hb x hx)
    · next hab =>
      have hba : le b a = true := by
        rcases htot a b with h | h
        · exact absurd h hab
        · exact h
      refine List.pairwise_cons.mpr ⟨?_, ih ht⟩
      intro x hx
      rcases mem_insertOrd.mp hx with rfl | hx
      · exact hba
      · exact hb x hx

lemma pairwise_insSort
    (htot : ∀ a b, le a b = true ∨ le b a = true)
    (htrans : ∀ a b c, le a b = true → le b c = true → le a c = true)
    (l : List α) : (insSort le l).Pairwise (fun x y => le x y = true) := by
  induction l with
  | nil => simp [insSort]
  | cons a t ih => exact pairwise_insertOrd htot htrans a ih

lemma mem_of_mem_dropDupKeepLast {x : α} {l : List α}
    (h : x ∈ dropDupKeepLast key l) : x ∈ l := by
  induction l with
  | nil => simpa [dropDupKeepLast] using h
  | cons a t ih =>
    rw [dropDupKeepLast] at h
    split at h
    · exact List.mem_cons_of_mem _ (ih h)
    · rcases List.mem_cons.mp h with rfl | h
      · exact List.mem_cons_self ..
      · exact List.mem_cons_of_mem _ (ih h)

/-- What keep-last dedup leaves for a given key: exactly the last row
of the input that carries that key (if any). -/
lemma filter_dropDupKeepLast (l : List α) (k : K) :
    (dropDupKeepLast key l).filter (fun r => decide (key r = k))
      = ((l.filter (fun r => decide (key r = k))).getLast?).toList := by
  induction l with
  | nil => simp [dropDupKeepLast]
  | cons x xs ih =>
    rw [dropDupKeepLast]
    by_cases hk : key x = k
    · by_cases hany : xs.any (fun y => decide (key y = key x)) = true
      · rw [if_pos hany, ih]
        have hne : xs.filter (fun r => decide (key r = k)) ≠ [] := by
          rcases List.any_eq_true.mp hany with ⟨y, hy, hky⟩
          have hyk : key y = k := by rw [of_decide_eq_true hky, hk]
          intro hnil
          have hymem : y ∈ xs.filter (fun r => decide (key r = k)) :=
            List.mem_filter.mpr ⟨hy, by simp [hyk]⟩
          rw [hnil] at hymem
          simp at hymem
        rw [List.filter_cons_of_pos (by simpa using hk)]
        rcases hxs : xs.filter (fun r => decide (key r = k)) with _ | ⟨y, t⟩
        · exact absurd hxs hne
        · rw [List.getLast?_cons_cons]
      · rw [if_neg hany]
        have hnil : xs.filter (fun r => decide (key r = k)) = [] := by
          rw [List.filter_eq_nil_iff]
          intro y hy
          simp only [decide_eq_true_eq]
          intro hyk
          exact hany (List.any_eq_true.mpr ⟨y, hy, by simp [hyk, hk]⟩)
        rw [List.filter_cons_of_pos (by simpa using hk), ih, hnil,
          List.filter_cons_of_pos (by simpa using hk), hnil]
        rfl
    · have hfx : ∀ t : List α, (x :: t).filter (fun r => decide (key r = k))
          = t.filter (fun r => decide (key r = k)) :=
        fun t => List.filter_cons_of_neg (by simpa using hk)
      by_cases hany : xs.any (fun y => decide (key y = key x)) = true
      · rw [if_pos hany, ih, hfx]
      · rw [if_neg hany, hfx, ih, hfx]

/-- A list permutation-equal to a two-element list is one of its two
orderings. -/
lemma perm_pair {l : List α} {a b : α} (h : List.Perm l [a, b]) :
    l = [a, b] ∨ l = [b, a] := by
  have hlen : l.length = 2 := by simpa using h.length_eq
  rcases l with _ | ⟨x, _ | ⟨y, _ | ⟨z, t⟩⟩⟩ <;> simp_all
  have hx : x ∈ [a, b] := h.mem_iff.mp (List.mem_cons_self ..)
  rcases List.mem_cons.mp hx with rfl | hx
  · left
    have := h.cons_inv
    simpa [List.perm_singleton] using this
  · rcases List.mem_singleton.mp hx with rfl
    right
    have hswap := h.trans (List.Perm.swap x a [])
    have := hswap.cons_inv
    simpa [List.perm_singleton] using this

/-- After `sortDedup`, the rows carrying key `k` are exactly the last
row of key `k` in the sorted input. -/
lemma filter_sortDedup (l : List α) (k : K) :
    (sortDedup key le l).filter (fun r => decide (key r = k))
      = (((insSort le l).filter (fun r => decide (key r = k))).getLast?).toList :=
  filter_dropDupKeepLast _ k

/-- Uniqueness: each business key present in the input appears in
exactly one output row; an absent key appears in none. -/
lemma length_filter_sortDedup (l : List α) (k : K) :
    ((sortDedup key le l).filter (fun r => decide (key r = k))).length
      = if (l.filter (fun r => decide (key r = k))).isEmpty then 0 else 1 := by
  rw [filter_sortDedup]
  have hperm : List.Perm ((insSort le l).filter (fun r => decide (key r = k)))
      (l.filter (fun r => decide (key r = k))) :=
    (insSort_perm l).filter _
  rcases hfs : (insSort le l).filter (fun r => decide (key r = k)) with _ | ⟨y, t⟩
  · have : l.filter (fun r => decide (key r = k)) = [] := by
      have h2 := hperm.symm
      rw [hfs] at h2
      exact List.Perm.eq_nil h2
    simp [this]
  · have hne : ¬(l.filter (fun r => decide (key r = k))).isEmpty = true := by
      rw [List.isEmpty_iff]
      intro hnil
      rw [hfs, hnil] at hperm
      exact List.noConfusion (List.Perm.eq_nil hperm)
    rw [if_neg hne]
    obtain ⟨z, hz⟩ := Option.isSome_iff_exists.mp
      (List.getLast?_isSome.mpr (List.cons_ne_nil y t))
    rw [hz]
    rfl

/-- Last-write-wins: if the input rows with key `k` are exactly
`{r1, r2}` with timestamps `a < b`, the output row for `k` is `r2`. -/
lemma sortDedup_lww {ra : α → Option Nat}
    (htot : ∀ a b, le a b = true ∨ le b a = true)
    (htrans : ∀ a b c, le a b = true → le b c = true → le a c = true)
    (hkey : ∀ r s, key r = key s → le r s = optNatLe (ra r) (ra s))
    {l : List α} {k : K} {r1 r2 : α} {a b : Nat}
    (hperm : List.Perm (l.filter (fun r => decide (key r = k))) [r1, r2])
    (ha : ra r1 = some a) (hb : ra r2 = some b) (hab : a < b) :
    (sortDedup key le l).filter (fun r => decide (key r = k)) = [r2] := by
  have hF : List.Perm ((insSort le l).filter (fun r => decide (key r = k))) [r1, r2] :=
    ((insSort_perm l).filter _).trans hperm
  have hk1 : key r1 = k := by
    have h1 : r1 ∈ l.filter (fun r => decide (key r = k)) :=
      hperm.mem_iff.mpr (List.mem_cons_self ..)
    simpa using (List.mem_filter.mp h1).2
  have hk2 : key r2 = k := by
    have h2 : r2 ∈ l.filter (fun r => decide (key r = k)) :=
      hperm.mem_iff.mpr (by simp)
    simpa using (List.mem_filter.mp h2).2
  have hsorted : ((insSort le l).filter (fun r => decide (key r = k))).Pairwise
      (fun x y => le x y = true) :=
    (pairwise_insSort htot htrans l).filter _
  rcases perm_pair hF with hcase | hcase
  · rw [filter_sortDedup, hcase]
    rfl
  · exfalso
    rw [hcase] at hsorted
    have h21 : le r2 r1 = true := by
      rcases List.pairwise_cons.mp hsorted with ⟨hall, _⟩
      exact hall r1 (List.mem_singleton.mpr rfl)
    rw [hkey r2 r1 (by rw [hk2, hk1]), hb, ha] at h21
    exact absurd (of_decide_eq_true h21) (by omega)

end SortDedupLemmas

/-! ## Silver snapshot store

One snapshot file per entity (`silver/<entity>/<entity>.parquet`),
overwritten on upload (`upload_data(..., overwrite=True)`). The store
maps a remote path to the table last uploaded there; the Parquet
serialization itself is representation-level and not modelled. -/

/-- A snapshot store for one row type. -/
def SnapStore (α : Type) : Type := List (String × List α)

instance {α : Type} [DecidableEq α] : DecidableEq (SnapStore α) :=
  inferInstanceAs (DecidableEq (List (String × List α)))

/-- Upload with overwrite: replace any snapshot at `path`. -/
def uploadSnap {α : Type} (path : String) (df : List α) (st : SnapStore α) :
    SnapStore α :=
  (path, df) :: (st : List (String × List α)).filter (fun e => !decide (e.1 = path))

/-! ## Building silver job (`app/jobs/building_silver.py`)

`BRow` models one row of the building DataFrame at the dedup step:
`id_building_primaire` (the business key), the coerced `received_at`
timestamp, and all remaining columns collapsed into `rest`. The
rowwise numeric/date coercion is modelled separately (see `JVal`
below); it maps rows one-to-one so the dedup and emptiness behaviour
here is unaffected. -/

structure BRow where
  id_building_primaire : String
  received_at : Option Nat
  rest : String
deriving DecidableEq

/-- Sort order of `df.sort_values(["id_building_primaire", "received_at"])`. -/
def bLe (r s : BRow) : Bool :=
  lexLe strLe optNatLe (r.id_building_primaire, r.received_at)
    (s.id_building_primaire, s.received_at)

/-- `transform_building`: on a non-empty frame, sort by
(business key, received_at) and drop duplicate keys keeping the last. -/
def transform_building (l : List BRow) : List BRow :=
  if l.isEmpty then l
  else sortDedup (fun r => r.id_building_primaire) bLe l

/-- One path entry returned by `get_paths("bronze/building")`: a name,
the directory flag, and the JSON parse outcome of the blob
(`none` = `json.JSONDecodeError`). -/
structure BEntry where
  name : String
  is_directory : Bool
  content : Option BRow
deriving DecidableEq

/-- `load_building_bronze`: read every non-directory blob, keep the
successfully parsed documents (malformed JSON is logged and skipped). -/
def load_building_bronze (paths : List BEntry) : List BRow :=
  paths.filterMap (fun p => if p.is_directory then none else p.content)

/-- `save_building_silver` (job version): an empty frame is not
written at all; otherwise the snapshot is uploaded with overwrite. -/
def save_building_silver (df : List BRow) (st : SnapStore BRow) : SnapStore BRow :=
  if df.isEmpty then st
  else uploadSnap "silver/building/building.parquet" df st

/-- `run_building_silver_job`: load bronze, transform, save silver. -/
def run_building_silver_job (paths : List BEntry) (st : SnapStore BRow) :
    SnapStore BRow :=
  save_building_silver (transform_building (load_building_bronze paths)) st

/-! ## Invoice silver job (`app/jobs/invoice_silver.py`) -/

/-- One invoice record (unit document or batch item):
`invoice_id_primaire` may be absent (`none`) for malformed batch items;
`received_at` as coerced timestamp (`none` also models an absent field,
Python `dict.get` returning `None`). -/
structure InvRow where
  invoice_id_primaire : Option String
  received_at : Option Nat
  rest : String
deriving DecidableEq

/-- Parsed content of one invoice bronze blob: not a JSON object, a
unit invoice document, or a batch envelope (`items` / `invoices` list,
possibly with its own `received_at`); a `none` batch item models a
non-dict list element, which is skipped. -/
inductive InvoiceJson where
  | nondict : InvoiceJson
  | unit (rec : InvRow) : InvoiceJson
  | batch (received_at : Option Nat) (items : List (Option InvRow)) : InvoiceJson
deriving DecidableEq

/-- `_extract_invoice_records`: flatten a parsed blob into invoice
records; batch items lacking `received_at` inherit the envelope's. -/
def extract_invoice_records : InvoiceJson → List InvRow
  | .nondict => []
  | .unit rec => [rec]
  | .batch bra items =>
    items.filterMap (fun o => o.map (fun r =>
      if r.received_at = none ∧ bra.isSome then { r with received_at := bra } else r))

/-- One path entry under `bronze/invoice/` with its JSON parse outcome. -/
structure InvEntry where
  name : String
  is_directory : Bool
  parsed : Option InvoiceJson
deriving DecidableEq

/-- `load_invoice_bronze`: read every non-directory blob, skip
malformed JSON, extend with the extracted records of each valid blob. -/
def load_invoice_bronze (paths : List InvEntry) : List InvRow :=
  paths.foldr
    (fun p acc =>
      (if p.is_directory then []
       else match p.parsed with
         | none => []
         | some j => extract_invoice_records j) ++ acc)
    []

/-- Sort order of `df.sort_values(["invoice_id_primaire", "received_at"])`. -/
def invLe (r s : InvRow) : Bool :=
  lexLe optStrLe optNatLe (r.invoice_id_primaire, r.received_at)
    (s.invoice_id_primaire, s.received_at)

/-- `transform_invoice`: drop rows with a null `invoice_id_primaire`
(they would break the dedup), then sort by (id, received_at) and drop
duplicate ids keeping the last. -/
def transform_invoice (l : List InvRow) : List InvRow :=
  if l.isEmpty then l
  else
    sortDedup (fun r => r.invoice_id_primaire) invLe
      (l.filter (fun r => r.invoice_id_primaire.isSome))

/-- `save_invoice_silver`: empty frame → no write; else upload. -/
def save_invoice_silver (df : List InvRow) (st : SnapStore InvRow) :
    SnapStore InvRow :=
  if df.isEmpty then st
  else uploadSnap "silver/invoice/invoice.parquet" df st

/-- `run_invoice_silver_job`. -/
def run_invoice_silver_job (paths : List InvEntry) (st : SnapStore InvRow) :
    SnapStore InvRow :=
  save_invoice_silver (transform_invoice (load_invoice_bronze paths)) st

/-! ## Degree-days silver job (`app/jobs/degreedays_silver.py`) -/

/-- One flattened degree-days silver row. Column types are those after
`transform_degreedays` coercion (`to_numeric` / `to_datetime`,
representation-level and not separately modelled here). -/
structure DDRow where
  station_id : Option String
  year : Option Int
  month : Option Int
  period_month : Option String
  indicator : Option String
  basis : Option Int
  value : Option Int
  received_at : Option Nat
deriving DecidableEq

/-- The composite business key `(station_id, period_month, indicator,
basis)`. -/
def ddKey (r : DDRow) :
    Option String × (Option String × (Option String × Option Int)) :=
  (r.station_id, (r.period_month, (r.indicator, r.basis)))

/-- Lexicographic order on the composite key columns. -/
def ddKeyLe :
    Option String × (Option String × (Option String × Option Int)) →
    Option String × (Option String × (Option String × Option Int)) → Bool :=
  lexLe optStrLe (lexLe optStrLe (lexLe optStrLe optIntLe))

/-- Sort order of `df.sort_values(["station_id", "period_month",
"indicator", "basis", "received_at"])`. -/
def ddLe (r s : DDRow) : Bool :=
  lexLe ddKeyLe optNatLe (ddKey r, r.received_at) (ddKey s, s.received_at)

/-- `transform_degreedays`: sort by (composite key, received_at), drop
duplicate composite keys keeping the last. -/
def transform_degreedays (l : List DDRow) : List DDRow :=
  if l.isEmpty then l
  else sortDedup ddKey ddLe l

/-- One monthly indicator item inside a degree-days bronze document's
`data` array. -/
structure DDItem where
  period_month : Option String
  indicator : Option String
  basis : Option Int
  value : Option Int
deriving DecidableEq

/-- One parsed degree-days bronze document. -/
structure DDDoc where
  station_id : Option String
  year : Option Int
  month : Option Int
  received_at : Option Nat
  data : List DDItem
deriving DecidableEq

/-- One path entry under `bronze/degreedays/` (any year/month folder)
with its JSON parse outcome. -/
structure DDEntry where
  name : String
  is_directory : Bool
  parsed : Option DDDoc
deriving DecidableEq

/-- `load_degreedays_bronze`: skip directories and malformed JSON,
explode each document's `data` array into one row per item, inheriting
the parent's `station_id` / `year` / `month` / `received_at`. -/
def load_degreedays_bronze (paths : List DDEntry) : List DDRow :=
  paths.foldr
    (fun p acc =>
      (if p.is_directory then []
       else match p.parsed with
         | none => []
         | some doc =>
           doc.data.map (fun item =>
             { station_id := doc.station_id
               year := doc.year
               month := doc.month
               period_month := item.period_month
               indicator := item.indicator
               basis := item.basis
               value := item.value
               received_at := doc.received_at })) ++ acc)
    []

/-- `save_degreedays_silver`: empty frame → no write; else upload. -/
def save_degreedays_silver (df : List DDRow) (st : SnapStore DDRow) :
    SnapStore DDRow :=
  if df.isEmpty then st
  else uploadSnap "silver/degreedays/degreedays_monthly.parquet" df st

/-- `run_degreedays_silver_job`. -/
def run_degreedays_silver_job (paths : List DDEntry) (st : SnapStore DDRow) :
    SnapStore DDRow :=
  save_degreedays_silver (transform_degreedays (load_degreedays_bronze paths)) st

/-! ## Numeric coercion of the building transform
(`transform_building`, numeric section)

`JVal` models one raw JSON field value; `toNumeric` models
`pd.to_numeric(col, errors="coerce")` on one cell: numbers pass
through, numeric strings are parsed, anything else becomes null (NaN).
The model is integer-valued; fractional literals are out of scope, the
claims only distinguish parse success from parse failure. -/

inductive JVal where
  | vnum (n : Int) : JVal
  | vstr (s : String) : JVal
  | vnull : JVal
deriving DecidableEq

/-- Parse an optionally minus-signed decimal string. -/
def parseIntStr (s : String) : Option Int :=
  match s.data with
  | '-' :: rest => (parseDigits rest).map (fun n => -(n : Int))
  | _ => (parseDigits s.data).map (fun n => (n : Int))

/-- `pd.to_numeric(_, errors="coerce")` on one cell: never raises,
unparseable input becomes null. -/
def toNumeric : JVal → Option Int
  | .vnum n => some n
  | .vstr s => parseIntStr s
  | .vnull => none

/-- The raw numeric columns of one building bronze document. -/
structure BuildingNumIn where
  latitude : JVal
  longitude : JVal
  geographical_area : JVal
  occupant : JVal
  surface : JVal
deriving DecidableEq

/-- The same columns after the numeric section of `transform_building`. -/
structure BuildingNumOut where
  latitude : Option Int
  longitude : Option Int
  geographical_area : Option Int
  occupant : Option Int
  surface : Option Int
deriving DecidableEq

/-- Numeric coercion of `transform_building`: `to_numeric` with
coerce on the five numeric columns, then null out-of-range
latitude/longitude, then `fillna(0)` on occupant and surface. -/
def coerce_building_numeric (r : BuildingNumIn) : BuildingNumOut :=
  let lat := toNumeric r.latitude
  let lon := toNumeric r.longitude
  { latitude :=
      match lat with
      | some v => if -90 ≤ v ∧ v ≤ 90 then some v else none
      | none => none
    longitude :=
      match lon with
      | some v => if -180 ≤ v ∧ v ≤ 180 then some v else none
      | none => none
    geographical_area := toNumeric r.geographical_area
    occupant := some ((toNumeric r.occupant).getD 0)
    surface := some ((toNumeric r.surface).getD 0) }

/-! ## Cascading building delete
(`app/routes/building.py::delete_building`,
`app/utils.py::delete_invoices_for_deliverypoint`,
`app/utils.py::delete_usage_data_for_building`)

The delete endpoint is modelled as a function from the four silver
tables to the ordered list of storage mutations it performs
(its trace) plus the reported counts. Each trace action is one
`save_*_silver` upload (full load-filter-save row removal) or one
`delete_file_from_bronze` call. -/

structure DPRowS where
  deliverypoint_id_primaire : String
  id_building_primaire : String
  rest : String
deriving DecidableEq

structure InvRowS where
  invoice_id_primaire : String
  deliverypoint_id_primaire : String
  rest : String
deriving DecidableEq

structure UDRowS where
  usage_data_id_primaire : String
  id_building_primaire : String
  rest : String
deriving DecidableEq

structure BldRowS where
  id_building_primaire : String
  rest : String
deriving DecidableEq

/-- One storage mutation performed during the cascade. -/
inductive DelAct where
  | save_deliverypoint_silver (rows : List DPRowS) : DelAct
  | save_invoice_silver (rows : List InvRowS) : DelAct
  | save_usage_data_silver (rows : List UDRowS) : DelAct
  | save_building_silver (rows : List BldRowS) : DelAct
  | delete_bronze (entity : String) (file : String) : DelAct
deriving DecidableEq

/-- `delete_invoices_for_deliverypoint`: remove the silver rows of one
delivery point's invoices (one save of the filtered table), then the
bronze blob of each removed invoice. Returns (trace, resulting invoice
table, number deleted). -/
def delete_invoices_for_deliverypoint (dp_id : String) (inv : List InvRowS) :
    List DelAct × List InvRowS × Nat :=
  if inv.isEmpty then ([], inv, 0)
  else
    let toDel := inv.filter (fun r => decide (r.deliverypoint_id_primaire = dp_id))
    if toDel.isEmpty then ([], inv, 0)
    else
      let keep := inv.filter (fun r => !decide (r.deliverypoint_id_primaire = dp_id))
      (DelAct.save_invoice_silver keep
         :: toDel.map (fun r =>
              DelAct.delete_bronze "invoice" (r.invoice_id_primaire ++ ".json")),
       keep, toDel.length)

/-- `delete_usage_data_for_building`: same shape for usage data. -/
def delete_usage_data_for_building (building_id : String) (ud : List UDRowS) :
    List DelAct × Nat :=
  if ud.isEmpty then ([], 0)
  else
    let toDel := ud.filter (fun r => decide (r.id_building_primaire = building_id))
    if toDel.isEmpty then ([], 0)
    else
      let keep := ud.filter (fun r => !decide (r.id_building_primaire = building_id))
      (DelAct.save_usage_data_silver keep
         :: toDel.map (fun r =>
              DelAct.delete_bronze "usage_data" (r.usage_data_id_primaire ++ ".json")),
       toDel.length)

/-- `delete_building`: the cascade endpoint. Returns a 404 error when
the building is unknown; otherwise the ordered trace of storage
mutations and the three reported counts
(deliverypoints, invoices, usage_data). -/
def delete_building (id : String) (df_b : List BldRowS) (df_dp : List DPRowS)
    (df_inv : List InvRowS) (df_ud : List UDRowS) :
    Except String (List DelAct × Nat × Nat × Nat) :=
  if df_b.isEmpty then .error "Aucun building en silver."
  else if !(df_b.any (fun r => decide (r.id_building_primaire = id))) then
    .error "Id_Building_Primaire non trouve, suppression impossible"
  else
    let df_dp_b := df_dp.filter (fun r => decide (r.id_building_primaire = id))
    let dpStep : List DelAct × List String :=
      if df_dp_b.isEmpty then ([], [])
      else
        let dp_ids := df_dp_b.map (fun r => r.deliverypoint_id_primaire)
        let keep := df_dp.filter (fun r => !decide (r.id_building_primaire = id))
        (DelAct.save_deliverypoint_silver keep
           :: dp_ids.map (fun i => DelAct.delete_bronze "deliverypoint" (i ++ ".json")),
         dp_ids)
    let invStep : List DelAct × List InvRowS × Nat :=
      dpStep.2.foldl
        (fun acc dp =>
          let step := delete_invoices_for_deliverypoint dp acc.2.1
          (acc.1 ++ step.1, step.2.1, acc.2.2 + step.2.2))
        ([], df_inv, 0)
    let udStep := delete_usage_data_for_building id df_ud
    let bActs : List DelAct :=
      [DelAct.save_building_silver
         (df_b.filter (fun r => !decide (r.id_building_primaire = id))),
       DelAct.delete_bronze "building" (id ++ ".json")]
    .ok (dpStep.1 ++ invStep.1 ++ udStep.1 ++ bActs,
      dpStep.2.length, invStep.2.2, udStep.2)

/-- Trace of a delete result (empty for an error response). -/
def deleteTrace (r : Except String (List DelAct × Nat × Nat × Nat)) : List DelAct :=
  match r with
  | .ok (tr, _, _, _) => tr
  | .error _ => []

/-- Is this action part of removing DeliveryPoint rows (silver save of
the filtered deliverypoint table, or a deliverypoint bronze delete)? -/
def isDPRemoval : DelAct → Bool
  | .save_deliverypoint_silver _ => true
  | .delete_bronze e _ => decide (e = "deliverypoint")
  | _ => false

/-- Is this action part of deleting Invoices? -/
def isInvoiceDeletion : DelAct → Bool
  | .save_invoice_silver _ => true
  | .delete_bronze e _ => decide (e = "invoice")
  | _ => false

/-- Is this action part of removing UsageData rows? -/
def isUsageDeletion : DelAct → Bool
  | .save_usage_data_silver _ => true
  | .delete_bronze e _ => decide (e = "usage_data")
  | _ => false

/-- The ordering property asserted by the spec: once any
DeliveryPoint-removal action has happened, no Invoice-deletion action
may follow (i.e. all invoice deletions precede all deliverypoint
removals). -/
def invoiceDeletionsPrecedeDPRemovals (tr : List DelAct) : Bool :=
  (go tr false) where
  go : List DelAct → Bool → Bool
    | [], _ => true
    | a :: tl, seenDP =>
      if isInvoiceDeletion a ∧ seenDP then false
      else go tl (seenDP || isDPRemoval a)

/-! ## DeliveryPoint creation
(`app/routes/deliverypoint.py::create_deliverypoint`,
`app/utils.py::next_deliverypoint_index_for_building`)

The route is modelled as a function of the payload's
`id_building_primaire` and of the `bronze/deliverypoint` listing
(`.error` = the listing raised). The result is either the HTTP 400
error detail (no write performed) or the generated id together with
the list of bronze files written. -/

/-- One entry of a storage path listing. -/
structure PathEntry where
  name : String
  is_directory : Bool
deriving DecidableEq

/-- Last component of a path (`p.name.split("/")[-1]`). -/
def lastPathComponent (name : String) : List Char :=
  (splitOnChar '/' name.data).getLastD []

/-- Prefix-match of the filename against
`deliverypoint_{suffix}_(\d{3})\.json` (`re.match`, so trailing
characters are allowed; regex metacharacters inside the 3-character
suffix are not modelled). Returns the captured 3-digit group. -/
def matchDPPattern (suffix filename : List Char) : Option Nat :=
  let pre := "deliverypoint_".data ++ suffix ++ [ '_' ]
  if pre.isPrefixOf filename then
    let rest := filename.drop pre.length
    let digits := rest.take 3
    if digits.length = 3 ∧ digits.all Char.isDigit ∧
        ".json".data.isPrefixOf (rest.drop 3) then
      parseDigits digits
    else none
  else none

/-- The id format accepted by `next_deliverypoint_index_for_building`:
prefix `building_` and total length 12 (`len("building_000")`). -/
def dpFormatOk (building_id : String) : Bool :=
  "building_".data.isPrefixOf building_id.data && decide (building_id.data.length = 12)

/-- `next_deliverypoint_index_for_building`: reject a malformed
building id (ValueError → HTTP 400); a failed listing yields index 1;
otherwise 1 + the largest matching 3-digit suffix found in
`bronze/deliverypoint`. -/
def next_deliverypoint_index_for_building (building_id : String)
    (paths : Except String (List PathEntry)) : Except String Nat :=
  if !dpFormatOk building_id then
    .error ("id_building_primaire invalide : " ++ building_id)
  else
    let building_suffix := building_id.data.drop 9
    match paths with
    | .error _ => .ok 1
    | .ok ps =>
      .ok ((ps.foldl
        (fun mx p =>
          if p.is_directory then mx
          else
            match matchDPPattern building_suffix (lastPathComponent p.name) with
            | some num => if num > mx then num else mx
            | none => mx)
        0) + 1)

/-- `create_deliverypoint`: compute the next index (400 on ValueError,
without writing), build `deliverypoint_{suffix}_{idx:03d}`, write one
bronze document, return the new id. Note: the route never consults the
building silver table. -/
def create_deliverypoint (id_building_primaire : String)
    (paths : Except String (List PathEntry)) :
    Except String (String × List String) :=
  match next_deliverypoint_index_for_building id_building_primaire paths with
  | .error e => .error e
  | .ok next_idx =>
    let building_suffix := id_building_primaire.data.drop 9
    let deliverypoint_id :=
      String.mk ("deliverypoint_".data ++ building_suffix
        ++ '_' :: padZeros 3 (decDigits next_idx))
    .ok (deliverypoint_id, [deliverypoint_id ++ ".json"])

/-- Bronze files written by a create result (none for an error). -/
def createWrites (r : Except String (String × List String)) : List String :=
  match r with
  | .ok (_, w) => w
  | .error _ => []

/-- `building_exists_in_silver` (`app/utils.py`). -/
def building_exists_in_silver (df : List BldRowS) (building_id : String) : Bool :=
  !df.isEmpty && df.any (fun r => decide (r.id_building_primaire = building_id))

/-! ## Degree-days gap filler
(`app/jobs/degreedays_silver.py::ensure_degreedays_for_station`)

The routine is modelled as a function from an environment (silver
loader, weather provider, bronze writer, rebuild job — each may raise)
to the ordered trace of its observable effects. `ensure_body` is the
code inside the global `try:`; a second component `some msg` means the
body raised an exception with message `msg` at that point.
`ensure_degreedays_for_station` wraps it in the global handler. -/

/-- A Python `datetime.date`. -/
structure PyDate where
  year : Nat
  month : Nat
  day : Nat
deriving DecidableEq

/-- Linear month index; `date(y1,m1,1) <= date(y2,m2,1)` iff
`monthIdx y1 m1 ≤ monthIdx y2 m2` (months are within 1..12). -/
def monthIdx (y m : Nat) : Nat := 12 * y + m

/-- `current.strftime("%Y-%m")`: zero-padded year and month. -/
def fmtMonth (y m : Nat) : String :=
  String.mk (padZeros 4 (decDigits y) ++ '-' :: padZeros 2 (decDigits m))

/-- The month-stepping loop of `list_months_between`, with an explicit
iteration count. -/
def monthsFrom : Nat → Nat → Nat → List String
  | 0, _, _ => []
  | fuel + 1, y, m =>
    fmtMonth y m :: (if m = 12 then monthsFrom fuel (y + 1) 1 else monthsFrom fuel y (m + 1))

/-- `list_months_between(start, end)`: the months `YYYY-MM` from
`start`'s month to `end`'s month inclusive (empty when start is after
end). -/
def list_months_between (start finish : PyDate) : List String :=
  monthsFrom (monthIdx finish.year finish.month + 1 - monthIdx start.year start.month)
    start.year start.month

/-- `calendar.isleap`. -/
def isLeapYear (y : Nat) : Bool :=
  decide (y % 4 = 0) && (decide (y % 100 ≠ 0) || decide (y % 400 = 0))

/-- `calendar.monthrange(y, m)[1]`: number of days of the month. -/
def monthrange_days (y m : Nat) : Nat :=
  if m = 2 then (if isLeapYear y then 29 else 28)
  else if m = 4 ∨ m = 6 ∨ m = 9 ∨ m = 11 then 30
  else 31

/-- `map(int, s.split("-"))` unpacked into exactly two components. -/
def parseMonth (s : String) : Option (Nat × Nat) :=
  match splitOnChar '-' s.data with
  | [a, b] =>
    match parseDigits a, parseDigits b with
    | some y, some m => some (y, m)
    | _, _ => none
  | _ => none

/-- `str(x)` on a nullable string column (`astype(str)` renders null as
`"None"`/`"nan"`; `"None"` is used here). -/
def pyStr : Option String → String
  | some s => s
  | none => "None"

/-- One row returned by the weather provider
(`get_monthly_hdd_cdd`); only the `month` key is inspected by the gap
filler. -/
structure ProviderRow where
  month : Option String
  rest : String
deriving DecidableEq

/-- One observable effect of the gap filler. -/
inductive DDEvent where
  | providerCall (station : String) (start finish : PyDate) : DDEvent
  | bronzeWrite (entity fileName : String) (station : String)
      (year month : Nat) (rows : List ProviderRow) : DDEvent
  | rebuildSilver : DDEvent
  | logMissing (station : String) (missing : List String) : DDEvent
  | logFail (station : String) (msg : String) : DDEvent
deriving DecidableEq

/-- The collaborators of the gap filler; each `.error msg` is a raised
exception. -/
structure DDEnv where
  loadSilver : Except String (List DDRow)
  provider : String → PyDate → PyDate → Except String (List ProviderRow)
  writeBronze : String → String → Except String Unit
  rebuild : Except String Unit

/-- Months already present in silver for the station (empty when the
table is empty or the station absent). -/
def dd_have (df : List DDRow) (station : String) : List String :=
  if df.isEmpty then []
  else
    let subset := df.filter (fun r => decide (r.station_id = some station))
    if subset.isEmpty then []
    else subset.map (fun r => pyStr r.period_month)

/-- `missing_months = sorted(set(wanted) - have)`: the distinct wanted
months not present, in sorted order. -/
def dd_missing (df : List DDRow) (station : String) (wanted : List String) :
    List String :=
  insSort strLe ((wanted.dedup).filter (fun m => !decide (m ∈ dd_have df station)))

/-- Append a provider row to its month's group
(`defaultdict(list)` with dict insertion order). -/
def addGroup (gs : List (String × List ProviderRow)) (k : String) (r : ProviderRow) :
    List (String × List ProviderRow) :=
  match gs with
  | [] => [(k, [r])]
  | (k2, rs) :: t => if k2 = k then (k2, rs ++ [r]) :: t else (k2, rs) :: addGroup t k r

/-- Group provider rows by month, keeping only months in `missing`
(falsy month keys are skipped). -/
def groupByMonth (data : List ProviderRow) (missing : List String) :
    List (String × List ProviderRow) :=
  data.foldl
    (fun gs r =>
      match r.month with
      | none => gs
      | some mk =>
        if mk = "" then gs
        else if !decide (mk ∈ missing) then gs
        else addGroup gs mk r)
    []

/-- The bronze-write loop: one document per grouped month. A month key
that does not split into two parts is skipped (`except ValueError:
continue`); a non-numeric component makes `int()` raise, aborting the
body; a storage failure aborts the body after the attempted write. -/
def writeLoop (env : DDEnv) (station : String) :
    List (String × List ProviderRow) → List DDEvent → List DDEvent × Option String
  | [], tr => (tr, none)
  | (mk, rows) :: gs, tr =>
    match splitOnChar '-' mk.data with
    | [ysCs, msCs] =>
      match parseDigits ysCs, parseDigits msCs with
      | some y, some m =>
        let ys := String.mk ysCs
        let ms := String.mk msCs
        let entity := "degreedays/" ++ ys ++ "/" ++ ms
        let fname := "dd_" ++ station ++ "_" ++ ys ++ "_" ++ ms ++ ".json"
        let tr2 := tr ++ [DDEvent.bronzeWrite entity fname station y m rows]
        match env.writeBronze entity fname with
        | .error e => (tr2, some e)
        | .ok _ => writeLoop env station gs tr2
      | _, _ => (tr, some "ValueError: invalid literal for int()")
    | _ => writeLoop env station gs tr

/-- The body of `ensure_degreedays_for_station` (inside the global
`try:`): trace of effects performed, plus the raised exception message
if any. -/
def ensure_body (env : DDEnv) (station : String) (ref_start : PyDate)
    (ref_end : Option PyDate) (today : PyDate) : List DDEvent × Option String :=
  let refEnd := ref_end.getD today
  let wanted := list_months_between ref_start refEnd
  match env.loadSilver with
  | .error e => ([], some e)
  | .ok df =>
    match dd_missing df station wanted with
    | [] => ([], none)
    | m0 :: ms =>
      let tr0 := [DDEvent.logMissing station (m0 :: ms)]
      let mLast := (m0 :: ms).getLast (List.cons_ne_nil m0 ms)
      match parseMonth m0, parseMonth mLast with
      | some (sy, sm), some (ey, em) =>
        let start_dt : PyDate := ⟨sy, sm, 1⟩
        let end_dt : PyDate := ⟨ey, em, monthrange_days ey em⟩
        let tr1 := tr0 ++ [DDEvent.providerCall station start_dt end_dt]
        match env.provider station start_dt end_dt with
        | .error e => (tr1, some e)
        | .ok data =>
          if data.isEmpty then (tr1, none)
          else
            let res := writeLoop env station (groupByMonth data (m0 :: ms)) tr1
            match res.2 with
            | some _ => res
            | none =>
              let tr2 := res.1 ++ [DDEvent.rebuildSilver]
              match env.rebuild with
              | .error e => (tr2, some e)
              | .ok _ => (tr2, none)
      | _, _ => (tr0, some "ValueError: invalid literal for int()")

/-- Substring test (Python `needle in msg`). -/
def listContainsSub (hay needle : List Char) : Bool :=
  (List.range (hay.length + 1)).any (fun i => needle.isPrefixOf (hay.drop i))

/-- The classification of the global handler: provider
insufficient-coverage conditions are recognized by message sniffing. -/
def isCoverageError (msg : String) : Bool :=
  listContainsSub msg.data "SourceDataCoverage".data
    || listContainsSub msg.data "not have enough recorded temperature readings".data

/-- `ensure_degreedays_for_station`: run the body under the global
handler; a coverage error is swallowed silently, any other exception
is logged briefly; nothing ever propagates. -/
def ensure_degreedays_for_station (env : DDEnv) (station : String)
    (ref_start : PyDate) (ref_end : Option PyDate) (today : PyDate) :
    Except String (List DDEvent) :=
  let res := ensure_body env station ref_start ref_end today
  match res.2 with
  | none => .ok res.1
  | some msg =>
    if isCoverageError msg then .ok res.1
    else .ok (res.1 ++ [DDEvent.logFail station msg])

/-! ## Comparator facts for the row orders -/

lemma bLe_total (r s : BRow) : bLe r s = true ∨ bLe s r = true :=
  lexLe_total strLe_total optNatLe_total _ _

lemma bLe_trans (r s t : BRow) (h1 : bLe r s = true) (h2 : bLe s t = true) :
    bLe r t = true := by
  unfold bLe at h1 h2 ⊢
  exact lexLe_trans (fun a b c ha hb => @strLe_trans a b c ha hb)
    (fun a b ha hb => @strLe_antisymm a b ha hb)
    (fun x y z ha hb => @optNatLe_trans x y z ha hb) h1 h2

lemma bLe_key (r s : BRow) (h : r.id_building_primaire = s.id_building_primaire) :
    bLe r s = optNatLe r.received_at s.received_at := by
  simp [bLe, lexLe, h]

/-- Abbreviation for the degree-days composite key type. -/
def DDKeyT : Type := Option String × (Option String × (Option String × Option Int))

instance : DecidableEq DDKeyT :=
  inferInstanceAs (DecidableEq (Option String × (Option String × (Option String × Option Int))))

lemma ddKeyLe_total (a b : DDKeyT) : ddKeyLe a b = true ∨ ddKeyLe b a = true :=
  lexLe_total optStrLe_total
    (lexLe_total optStrLe_total (lexLe_total optStrLe_total optIntLe_total)) a b

lemma lexSI_trans (x y z : Option String × Option Int)
    (h1 : lexLe optStrLe optIntLe x y = true)
    (h2 : lexLe optStrLe optIntLe y z = true) :
    lexLe optStrLe optIntLe x z = true :=
  lexLe_trans (fun a b c ha hb => @optStrLe_trans a b c ha hb)
    (fun a b ha hb => @optStrLe_antisymm a b ha hb)
    (fun x y z hg hi => @optIntLe_trans x y z hg hi) h1 h2

lemma lexSI_antisymm (x y : Option String × Option Int)
    (h1 : lexLe optStrLe optIntLe x y = true)
    (h2 : lexLe optStrLe optIntLe y x = true) : x = y :=
  lexLe_antisymm (fun a b ha hb => @optStrLe_antisymm a b ha hb)
    (fun x y hg hi => @optIntLe_antisymm x y hg hi) h1 h2

lemma lexSSI_trans (x y z : Option String × (Option String × Option Int))
    (h1 : lexLe optStrLe (lexLe optStrLe optIntLe) x y = true)
    (h2 : lexLe optStrLe (lexLe optStrLe optIntLe) y z = true) :
    lexLe optStrLe (lexLe optStrLe optIntLe) x z = true :=
  lexLe_trans (fun a b c ha hb => @optStrLe_trans a b c ha hb)
    (fun a b ha hb => @optStrLe_antisymm a b ha hb)
    lexSI_trans h1 h2

lemma lexSSI_antisymm (x y : Option String × (Option String × Option Int))
    (h1 : lexLe optStrLe (lexLe optStrLe optIntLe) x y = true)
    (h2 : lexLe optStrLe (lexLe optStrLe optIntLe) y x = true) : x = y :=
  lexLe_antisymm (fun a b ha hb => @optStrLe_antisymm a b ha hb)
    lexSI_antisymm h1 h2

lemma ddKeyLe_trans (a b c : DDKeyT)
    (h1 : ddKeyLe a b = true) (h2 : ddKeyLe b c = true) : ddKeyLe a c = true := by
  unfold ddKeyLe at h1 h2 ⊢
  exact lexLe_trans (fun a b c ha hb => @optStrLe_trans a b c ha hb)
    (fun a b ha hb => @optStrLe_antisymm a b ha hb)
    lexSSI_trans h1 h2

lemma ddKeyLe_antisymm (a b : DDKeyT)
    (h1 : ddKeyLe a b = true) (h2 : ddKeyLe b a = true) : a = b := by
  unfold ddKeyLe at h1 h2
  exact lexLe_antisymm (fun a b ha hb => @optStrLe_antisymm a b ha hb)
    lexSSI_antisymm h1 h2

lemma ddLe_total (r s : DDRow) : ddLe r s = true ∨ ddLe s r = true :=
  lexLe_total ddKeyLe_total optNatLe_total _ _

lemma ddLe_trans (r s t : DDRow) (h1 : ddLe r s = true) (h2 : ddLe s t = true) :
    ddLe r t = true := by
  unfold ddLe at h1 h2 ⊢
  exact lexLe_trans ddKeyLe_trans ddKeyLe_antisymm
    (fun x y z ha hb => @optNatLe_trans x y z ha hb) h1 h2

lemma ddLe_key (r s : DDRow) (h : ddKey r = ddKey s) :
    ddLe r s = optNatLe r.received_at s.received_at := by
  simp [ddLe, lexLe, h]

/-- C1: for every bronze document set, after a silver rebuild each
business key appears in exactly one silver row (and an absent key in
none); and when two bronze documents share the same business key but
have different `received_at` values, the retained row is the one with
the later `received_at`. Stated for the building transform (business
key `id_building_primaire`) and for the degree-days transform
(composite key `(station_id, period_month, indicator, basis)`). -/
theorem C1_rebuild_dedup_last_write_wins :
    (∀ (l : List BRow) (k : String),
      ((transform_building l).filter (fun r => decide (r.id_building_primaire = k))).length
        = if (l.filter (fun r => decide (r.id_building_primaire = k))).isEmpty then 0 else 1) ∧
    (∀ (l : List BRow) (k : String) (r1 r2 : BRow) (a b : Nat),
      List.Perm (l.filter (fun r => decide (r.id_building_primaire = k))) [r1, r2] →
      r1.received_at = some a → r2.received_at = some b → a < b →
      (transform_building l).filter (fun r => decide (r.id_building_primaire = k)) = [r2]) ∧
    (∀ (l : List DDRow) (k : Option String × (Option String × (Option String × Option Int))),
      ((transform_degreedays l).filter (fun r => decide (ddKey r = k))).length
        = if (l.filter (fun r => decide (ddKey r = k))).isEmpty then 0 else 1) ∧
    (∀ (l : List DDRow) (k : Option String × (Option String × (Option String × Option Int)))
      (r1 r2 : DDRow) (a b : Nat),
      List.Perm (l.filter (fun r => decide (ddKey r = k))) [r1, r2] →
      r1.received_at = some a → r2.received_at = some b → a < b →
      (transform_degreedays l).filter (fun r => decide (ddKey r = k)) = [r2]) := by
  refine ⟨?_, ?_, ?_, ?_⟩
  · intro l k
    by_cases hl : l.isEmpty
    · rw [List.isEmpty_iff] at hl
      subst hl
      simp [transform_building]
    · rw [transform_building, if_neg hl]
      exact length_filter_sortDedup l k
  · intro l k r1 r2 a b hperm ha hb hab
    have hl : ¬l.isEmpty = true := by
      rw [List.isEmpty_iff]
      rintro rfl
      simpa using hperm.length_eq
    rw [transform_building, if_neg hl]
    exact sortDedup_lww bLe_total bLe_trans bLe_key hperm ha hb hab
  · intro l k
    by_cases hl : l.isEmpty
    · rw [List.isEmpty_iff] at hl
      subst hl
      simp [transform_degreedays]
    · rw [transform_degreedays, if_neg hl]
      exact length_filter_sortDedup l k
  · intro l k r1 r2 a b hperm ha hb hab
    have hl : ¬l.isEmpty = true := by
      rw [List.isEmpty_iff]
      rintro rfl
      simpa using hperm.length_eq
    rw [transform_degreedays, if_neg hl]
    exact sortDedup_lww ddLe_total ddLe_trans ddLe_key hperm ha hb hab

/-- Witness for C1 at a concrete two-document bronze set per entity:
the later `received_at` wins and the key appears exactly once. -/
theorem C1_witness :
    ((transform_building [⟨"B", some 1, "x"⟩, ⟨"B", some 2, "y"⟩]).filter
        (fun r => decide (r.id_building_primaire = "B"))).length = 1 ∧
    (transform_building [⟨"B", some 1, "x"⟩, ⟨"B", some 2, "y"⟩]).filter
        (fun r => decide (r.id_building_primaire = "B")) = [⟨"B", some 2, "y"⟩] ∧
    (transform_degreedays
        [⟨some "S", none, none, some "2024-01", some "hdd", some 18, some 100, some 1⟩,
         ⟨some "S", none, none, some "2024-01", some "hdd", some 18, some 200, some 2⟩]).filter
        (fun r => decide (ddKey r = (some "S", (some "2024-01", (some "hdd", some 18)))))
      = [⟨some "S", none, none, some "2024-01", some "hdd", some 18, some 200, some 2⟩] := by
  refine ⟨?_, ?_, ?_⟩
  · have h := C1_rebuild_dedup_last_write_wins.1
      [⟨"B", some 1, "x"⟩, ⟨"B", some 2, "y"⟩] "B"
    simpa using h
  · exact C1_rebuild_dedup_last_write_wins.2.1
      [⟨"B", some 1, "x"⟩, ⟨"B", some 2, "y"⟩] "B" ⟨"B", some 1, "x"⟩ ⟨"B", some 2, "y"⟩
      1 2 (by decide) rfl rfl (by omega)
  · exact C1_rebuild_dedup_last_write_wins.2.2.2
      [⟨some "S", none, none, some "2024-01", some "hdd", some 18, some 100, some 1⟩,
       ⟨some "S", none, none, some "2024-01", some "hdd", some 18, some 200, some 2⟩]
      (some "S", (some "2024-01", (some "hdd", some 18)))
      ⟨some "S", none, none, some "2024-01", some "hdd", some 18, some 100, some 1⟩
      ⟨some "S", none, none, some "2024-01", some "hdd", some 18, some 200, some 2⟩
      1 2 (by decide) rfl rfl (by omega)

/-! ## Loader facts -/

lemma load_invoice_bronze_cons (p : InvEntry) (l : List InvEntry) :
    load_invoice_bronze (p :: l)
      = (if p.is_directory then []
         else match p.parsed with
           | none => []
           | some j => extract_invoice_records j) ++ load_invoice_bronze l := rfl

lemma load_invoice_bronze_append (l1 l2 : List InvEntry) :
    load_invoice_bronze (l1 ++ l2)
      = load_invoice_bronze l1 ++ load_invoice_bronze l2 := by
  induction l1 with
  | nil => rfl
  | cons p t ih =>
    rw [List.cons_append, load_invoice_bronze_cons, ih, load_invoice_bronze_cons,
      List.append_assoc]

lemma load_degreedays_bronze_cons (p : DDEntry) (l : List DDEntry) :
    load_degreedays_bronze (p :: l)
      = (if p.is_directory then []
         else match p.parsed with
           | none => []
           | some doc =>
             doc.data.map (fun item =>
               { station_id := doc.station_id
                 year := doc.year
                 month := doc.month
                 period_month := item.period_month
                 indicator := item.indicator
                 basis := item.basis
                 value := item.value
                 received_at := doc.received_at })) ++ load_degreedays_bronze l := rfl

/-- C5: one blob whose content is not valid JSON never aborts a silver
rebuild: the malformed blob is skipped, the loaded record set is
exactly that of the remaining blobs, and the rebuilt silver table is
the one obtained without the malformed blob. Stated for the building
loader/job and the invoice loader/job. -/
theorem C5_malformed_blob_skipped :
    (∀ (pre post : List BEntry) (bad : BEntry),
      bad.is_directory = false → bad.content = none →
      load_building_bronze (pre ++ bad :: post)
          = load_building_bronze pre ++ load_building_bronze post ∧
      ∀ st, run_building_silver_job (pre ++ bad :: post) st
          = run_building_silver_job (pre ++ post) st) ∧
    (∀ (pre post : List InvEntry) (bad : InvEntry),
      bad.is_directory = false → bad.parsed = none →
      load_invoice_bronze (pre ++ bad :: post)
          = load_invoice_bronze pre ++ load_invoice_bronze post ∧
      ∀ st, run_invoice_silver_job (pre ++ bad :: post) st
          = run_invoice_silver_job (pre ++ post) st) := by
  constructor
  · intro pre post bad hdir hcontent
    have hload : load_building_bronze (pre ++ bad :: post)
        = load_building_bronze pre ++ load_building_bronze post := by
      unfold load_building_bronze
      rw [List.filterMap_append]
      congr 1
      rw [List.filterMap_cons]
      simp [hdir, hcontent]
    refine ⟨hload, ?_⟩
    intro st
    unfold run_building_silver_job
    rw [hload]
    unfold load_building_bronze
    rw [List.filterMap_append]
  · intro pre post bad hdir hparsed
    have hload : load_invoice_bronze (pre ++ bad :: post)
        = load_invoice_bronze pre ++ load_invoice_bronze post := by
      rw [load_invoice_bronze_append, load_invoice_bronze_cons, hdir, hparsed]
      simp
    refine ⟨hload, ?_⟩
    intro st
    unfold run_invoice_silver_job
    rw [hload, load_invoice_bronze_append]

/-- Witness for C5 at a one-good-one-bad bronze set per entity. -/
theorem C5_witness :
    load_building_bronze
        [⟨"good.json", false, some ⟨"B", some 1, "r"⟩⟩, ⟨"bad.json", false, none⟩]
      = load_building_bronze [⟨"good.json", false, some ⟨"B", some 1, "r"⟩⟩]
        ++ load_building_bronze [] ∧
    load_invoice_bronze
        [⟨"bad.json", false, none⟩, ⟨"good.json", false, some (.unit ⟨some "I", some 1, "r"⟩)⟩]
      = load_invoice_bronze []
        ++ load_invoice_bronze [⟨"good.json", false, some (.unit ⟨some "I", some 1, "r"⟩)⟩] := by
  constructor
  · exact (C5_malformed_blob_skipped.1
      [⟨"good.json", false, some ⟨"B", some 1, "r"⟩⟩] [] ⟨"bad.json", false, none⟩
      rfl rfl).1
  · exact (C5_malformed_blob_skipped.2
      [] [⟨"good.json", false, some (.unit ⟨some "I", some 1, "r"⟩)⟩] ⟨"bad.json", false, none⟩
      rfl rfl).1

/-- C9: every row of the rebuilt silver invoice table has a non-null
`invoice_id_primaire`; records lacking an id are dropped before the
dedup, so the transform result only depends on the id-bearing records. -/
theorem C9_invoice_silver_rows_have_id :
    ∀ (l : List InvRow),
      (∀ r ∈ transform_invoice l, r.invoice_id_primaire ≠ none) ∧
      transform_invoice l
        = transform_invoice (l.filter (fun r => r.invoice_id_primaire.isSome)) := by
  intro l
  constructor
  · intro r hr
    by_cases hl : l.isEmpty
    · rw [List.isEmpty_iff] at hl
      subst hl
      simp [transform_invoice] at hr
    · rw [transform_invoice, if_neg hl] at hr
      have h1 : r ∈ insSort invLe (l.filter (fun r => r.invoice_id_primaire.isSome)) :=
        mem_of_mem_dropDupKeepLast hr
      have h2 : r ∈ l.filter (fun r => r.invoice_id_primaire.isSome) :=
        (insSort_perm _).mem_iff.mp h1
      have h3 := (List.mem_filter.mp h2).2
      rw [Option.isSome_iff_exists] at h3
      rcases h3 with ⟨v, hv⟩
      simp [hv]
  · by_cases hl : l.isEmpty
    · rw [List.isEmpty_iff] at hl
      subst hl
      rfl
    · by_cases hf : (l.filter (fun r => r.invoice_id_primaire.isSome)).isEmpty
      · rw [List.isEmpty_iff] at hf
        rw [transform_invoice, if_neg hl, hf, transform_invoice]
        rfl
      · rw [transform_invoice, if_neg hl, transform_invoice, if_neg hf,
          List.filter_filter]
        simp

/-- Witness for C9 at a concrete batch with one id-less record. -/
theorem C9_witness :
    transform_invoice [⟨none, some 1, "a"⟩, ⟨some "I", some 2, "b"⟩]
        = transform_invoice
            ([⟨none, some 1, "a"⟩, ⟨some "I", some 2, "b"⟩].filter
              (fun r => r.invoice_id_primaire.isSome)) ∧
    (⟨some "I", some 2, "b"⟩ : InvRow).invoice_id_primaire ≠ none := by
  constructor
  · exact (C9_invoice_silver_rows_have_id [⟨none, some 1, "a"⟩, ⟨some "I", some 2, "b"⟩]).2
  · exact (C9_invoice_silver_rows_have_id [⟨none, some 1, "a"⟩, ⟨some "I", some 2, "b"⟩]).1
      ⟨some "I", some 2, "b"⟩ (by decide)

/-- C10: a rebuild whose bronze set yields no records (none exist, or
every blob is a directory marker or malformed) performs no silver
write: the previously persisted snapshot is left unchanged. Stated for
the building, invoice and degree-days jobs. -/
theorem C10_empty_rebuild_performs_no_write :
    (∀ (paths : List BEntry) (st : SnapStore BRow),
      (∀ p ∈ paths, p.is_directory = true ∨ p.content = none) →
      run_building_silver_job paths st = st) ∧
    (∀ (paths : List InvEntry) (st : SnapStore InvRow),
      (∀ p ∈ paths, p.is_directory = true ∨ p.parsed = none) →
      run_invoice_silver_job paths st = st) ∧
    (∀ (paths : List DDEntry) (st : SnapStore DDRow),
      (∀ p ∈ paths, p.is_directory = true ∨ p.parsed = none) →
      run_degreedays_silver_job paths st = st) := by
  refine ⟨?_, ?_, ?_⟩
  · intro paths st h
    have hload : load_building_bronze paths = [] := by
      unfold load_building_bronze
      rw [List.filterMap_eq_nil_iff]
      intro p hp
      rcases h p hp with hd | hc
      · simp [hd]
      · simp [hc]
    unfold run_building_silver_job
    rw [hload]
    rfl
  · intro paths st h
    have hload : load_invoice_bronze paths = [] := by
      induction paths with
      | nil => rfl
      | cons p t ih =>
        rw [load_invoice_bronze_cons, ih (fun q hq => h q (List.mem_cons_of_mem _ hq))]
        rcases h p (List.mem_cons_self ..) with hd | hc
        · simp [hd]
        · simp [hc]
    unfold run_invoice_silver_job
    rw [hload]
    rfl
  · intro paths st h
    have hload : load_degreedays_bronze paths = [] := by
      induction paths with
      | nil => rfl
      | cons p t ih =>
        rw [load_degreedays_bronze_cons, ih (fun q hq => h q (List.mem_cons_of_mem _ hq))]
        rcases h p (List.mem_cons_self ..) with hd | hc
        · simp [hd]
        · simp [hc]
    unfold run_degreedays_silver_job
    rw [hload]
    rfl

/-- Witness for C10: a directory marker plus a malformed blob leave a
non-trivial existing snapshot untouched, for each of the three jobs. -/
theorem C10_witness :
    run_building_silver_job [⟨"d", true, none⟩, ⟨"bad.json", false, none⟩]
        [("silver/building/building.parquet", [⟨"B", some 1, "r"⟩])]
      = [("silver/building/building.parquet", [⟨"B", some 1, "r"⟩])] ∧
    run_invoice_silver_job [⟨"bad.json", false, none⟩]
        [("silver/invoice/invoice.parquet", [⟨some "I", some 1, "r"⟩])]
      = [("silver/invoice/invoice.parquet", [⟨some "I", some 1, "r"⟩])] ∧
    run_degreedays_silver_job [⟨"bad.json", false, none⟩]
        [("silver/degreedays/degreedays_monthly.parquet",
          [⟨some "S", none, none, some "2024-01", some "hdd", some 18, some 1, some 1⟩])]
      = [("silver/degreedays/degreedays_monthly.parquet",
          [⟨some "S", none, none, some "2024-01", some "hdd", some 18, some 1, some 1⟩])] := by
  refine ⟨?_, ?_, ?_⟩
  · exact C10_empty_rebuild_performs_no_write.1 _ _ (by
      intro p hp
      rcases List.mem_cons.mp hp with rfl | hp
      · left; rfl
      · rcases List.mem_singleton.mp hp with rfl
        right; rfl)
  · exact C10_empty_rebuild_performs_no_write.2.1 _ _ (by
      intro p hp
      rcases List.mem_singleton.mp hp with rfl
      right; rfl)
  · exact C10_empty_rebuild_performs_no_write.2.2 _ _ (by
      intro p hp
      rcases List.mem_singleton.mp hp with rfl
      right; rfl)

/-- C8 counterexample: the claim says a malformed numeric string
becomes null in every numeric column, including occupant and surface;
but `transform_building` runs `fillna(0)` on occupant and surface
after the coercion, so a malformed occupant/surface becomes 0, not
null. -/
theorem C8_counterexample :
    toNumeric (JVal.vstr "abc") = none ∧
    (coerce_building_numeric
        ⟨JVal.vnull, JVal.vnull, JVal.vnull, JVal.vstr "abc", JVal.vstr "abc"⟩).occupant
      = some 0 ∧
    (coerce_building_numeric
        ⟨JVal.vnull, JVal.vnull, JVal.vnull, JVal.vstr "abc", JVal.vstr "abc"⟩).surface
      = some 0 ∧
    (some (0 : Int)) ≠ none := by
  refine ⟨rfl, rfl, rfl, by simp⟩

/-- C8 (amended): the numeric coercion never raises; a value that
cannot be parsed as a number becomes null for latitude, longitude and
geographical_area, while for occupant and surface the failed parse is
subsequently filled with 0 (`fillna(0)`), so it becomes 0 rather than
null. -/
theorem C8_amended_numeric_coercion :
    ∀ r : BuildingNumIn,
      (toNumeric r.latitude = none → (coerce_building_numeric r).latitude = none) ∧
      (toNumeric r.longitude = none → (coerce_building_numeric r).longitude = none) ∧
      (toNumeric r.geographical_area = none →
        (coerce_building_numeric r).geographical_area = none) ∧
      (toNumeric r.occupant = none → (coerce_building_numeric r).occupant = some 0) ∧
      (toNumeric r.surface = none → (coerce_building_numeric r).surface = some 0) := by
  intro r
  refine ⟨?_, ?_, ?_, ?_, ?_⟩ <;> intro h <;> simp [coerce_building_numeric, h]

/-- Witness for the amended C8 at an all-malformed input row. -/
theorem C8_witness :
    (coerce_building_numeric
        ⟨JVal.vstr "x", JVal.vstr "x", JVal.vstr "x", JVal.vstr "x", JVal.vstr "x"⟩).latitude
      = none ∧
    (coerce_building_numeric
        ⟨JVal.vstr "x", JVal.vstr "x", JVal.vstr "x", JVal.vstr "x", JVal.vstr "x"⟩).longitude
      = none ∧
    (coerce_building_numeric
        ⟨JVal.vstr "x", JVal.vstr "x", JVal.vstr "x", JVal.vstr "x", JVal.vstr "x"⟩).geographical_area
      = none ∧
    (coerce_building_numeric
        ⟨JVal.vstr "x", JVal.vstr "x", JVal.vstr "x", JVal.vstr "x", JVal.vstr "x"⟩).occupant
      = some 0 ∧
    (coerce_building_numeric
        ⟨JVal.vstr "x", JVal.vstr "x", JVal.vstr "x", JVal.vstr "x", JVal.vstr "x"⟩).surface
      = some 0 := by
  have h := C8_amended_numeric_coercion
    ⟨JVal.vstr "x", JVal.vstr "x", JVal.vstr "x", JVal.vstr "x", JVal.vstr "x"⟩
  exact ⟨h.1 rfl, h.2.1 rfl, h.2.2.1 rfl, h.2.2.2.1 rfl, h.2.2.2.2 rfl⟩

/-- C4 counterexample: the claim says a DeliveryPoint creation whose
`id_building_primaire` references no existing Building is rejected
without a write; but `create_deliverypoint` never consults the
building silver table — with an empty building table (so no Building
exists at all) and a well-formed id, the request is accepted and a
bronze document is written. -/
theorem C4_counterexample :
    building_exists_in_silver [] "building_abc" = false ∧
    create_deliverypoint "building_abc" (.ok [])
      = .ok ("deliverypoint_abc_001", ["deliverypoint_abc_001.json"]) := by
  exact ⟨rfl, rfl⟩

/-- C4 (amended): a DeliveryPoint creation request is accepted iff the
supplied `id_building_primaire` matches the expected format (prefix
`building_`, total length 12); a malformed id is rejected with an
error and performs no write, and exactly one bronze document is
written on acceptance. Whether the referenced Building exists is not
checked at creation. -/
theorem C4_amended_create_checks_format_only :
    ∀ (bid : String) (paths : Except String (List PathEntry)),
      (create_deliverypoint bid paths).isOk = dpFormatOk bid ∧
      (createWrites (create_deliverypoint bid paths)).length
        = if dpFormatOk bid then 1 else 0 := by
  intro bid paths
  by_cases h : dpFormatOk bid = true
  · cases paths with
    | error e =>
      simp [create_deliverypoint, next_deliverypoint_index_for_building, h,
        createWrites, Except.isOk, Except.toBool]
    | ok ps =>
      simp [create_deliverypoint, next_deliverypoint_index_for_building, h,
        createWrites, Except.isOk, Except.toBool]
  · rw [Bool.not_eq_true] at h
    simp [create_deliverypoint, next_deliverypoint_index_for_building, h,
      createWrites, Except.isOk, Except.toBool]

/-! ## Cascade-delete ordering facts -/

lemma delete_invoices_acts (dp : String) (inv : List InvRowS) :
    ∀ a ∈ (delete_invoices_for_deliverypoint dp inv).1, isInvoiceDeletion a = true := by
  intro a ha
  unfold delete_invoices_for_deliverypoint at ha
  by_cases h1 : inv.isEmpty
  · simp [h1] at ha
  · rw [if_neg h1] at ha
    by_cases h2 : (inv.filter (fun r => decide (r.deliverypoint_id_primaire = dp))).isEmpty
    · simp [h2] at ha
    · rw [if_neg h2] at ha
      simp only at ha
      rcases List.mem_cons.mp ha with rfl | ha
      · rfl
      · rcases List.mem_map.mp ha with ⟨r, _, rfl⟩
        rfl

lemma delete_usage_acts (bid : String) (ud : List UDRowS) :
    ∀ a ∈ (delete_usage_data_for_building bid ud).1, isUsageDeletion a = true := by
  intro a ha
  unfold delete_usage_data_for_building at ha
  by_cases h1 : ud.isEmpty
  · simp [h1] at ha
  · rw [if_neg h1] at ha
    by_cases h2 : (ud.filter (fun r => decide (r.id_building_primaire = bid))).isEmpty
    · simp [h2] at ha
    · rw [if_neg h2] at ha
      simp only at ha
      rcases List.mem_cons.mp ha with rfl | ha
      · rfl
      · rcases List.mem_map.mp ha with ⟨r, _, rfl⟩
        rfl

lemma invoice_fold_acts (dps : List String) :
    ∀ (acc : List DelAct × List InvRowS × Nat),
      (∀ a ∈ acc.1, isInvoiceDeletion a = true) →
      ∀ a ∈ (dps.foldl
          (fun acc dp =>
            let step := delete_invoices_for_deliverypoint dp acc.2.1
            (acc.1 ++ step.1, step.2.1, acc.2.2 + step.2.2))
          acc).1,
        isInvoiceDeletion a = true := by
  induction dps with
  | nil => intro acc hacc a ha; exact hacc a ha
  | cons dp t ih =>
    intro acc hacc a ha
    rw [List.foldl_cons] at ha
    refine ih _ ?_ a ha
    intro b hb
    rcases List.mem_append.mp hb with hb | hb
    · exact hacc b hb
    · exact delete_invoices_acts dp acc.2.1 b hb

/-- C3 counterexample: with one building, one delivery point under it
and one invoice under that delivery point, the cascade removes the
DeliveryPoint silver rows and its bronze blob before any Invoice
deletion happens — refuting the claimed invoices-first order. -/
theorem C3_counterexample :
    deleteTrace (delete_building "B1" [⟨"B1", "r"⟩] [⟨"DP1", "B1", "r"⟩]
        [⟨"I1", "DP1", "r"⟩] [])
      = [DelAct.save_deliverypoint_silver [],
         DelAct.delete_bronze "deliverypoint" "DP1.json",
         DelAct.save_invoice_silver [],
         DelAct.delete_bronze "invoice" "I1.json",
         DelAct.save_building_silver [],
         DelAct.delete_bronze "building" "B1.json"] ∧
    invoiceDeletionsPrecedeDPRemovals
        (deleteTrace (delete_building "B1" [⟨"B1", "r"⟩] [⟨"DP1", "B1", "r"⟩]
          [⟨"I1", "DP1", "r"⟩] []))
      = false := by
  exact ⟨rfl, rfl⟩

/-- C3 (amended): in the cascading building delete, the DeliveryPoint
rows (silver save + bronze blobs) are removed first, then the Invoices
under those DeliveryPoints are deleted (silver rows and bronze blobs),
then the UsageData rows scoped to the Building, and the Building's own
silver row and bronze blob are removed last. -/
theorem C3_amended_cascade_order :
    ∀ (id : String) (df_b : List BldRowS) (df_dp : List DPRowS)
      (df_inv : List InvRowS) (df_ud : List UDRowS)
      (tr : List DelAct) (n1 n2 n3 : Nat),
      delete_building id df_b df_dp df_inv df_ud = .ok (tr, n1, n2, n3) →
      ∃ t1 t2 t3,
        tr = t1 ++ t2 ++ t3 ++
          [DelAct.save_building_silver
             (df_b.filter (fun r => !decide (r.id_building_primaire = id))),
           DelAct.delete_bronze "building" (id ++ ".json")] ∧
        (∀ a ∈ t1, isDPRemoval a = true) ∧
        (∀ a ∈ t2, isInvoiceDeletion a = true) ∧
        (∀ a ∈ t3, isUsageDeletion a = true) := by
  intro id df_b df_dp df_inv df_ud tr n1 n2 n3 h
  unfold delete_building at h
  by_cases h1 : df_b.isEmpty
  · rw [if_pos h1] at h
    exact absurd h (by simp)
  · rw [if_neg h1] at h
    by_cases h2 : df_b.any (fun r => decide (r.id_building_primaire = id)) = true
    · rw [h2] at h
      simp only [Bool.not_true, Bool.false_eq_true, if_false] at h
      rw [Except.ok.injEq] at h
      have htr := congrArg Prod.fst h
      simp only at htr
      subst htr
      refine ⟨_, _, _, rfl, ?_, ?_, ?_⟩
      · intro a ha
        by_cases hdp : (df_dp.filter (fun r => decide (r.id_building_primaire = id))).isEmpty
        · rw [if_pos hdp] at ha
          simp at ha
        · rw [if_neg hdp] at ha
          simp only at ha
          rcases List.mem_cons.mp ha with rfl | ha
          · rfl
          · rcases List.mem_map.mp ha with ⟨i, _, rfl⟩
            rfl
      · intro a ha
        exact invoice_fold_acts _ ([], df_inv, 0) (by intro b hb; simp at hb) a ha
      · intro a ha
        exact delete_usage_acts id df_ud a ha
    · rw [Bool.not_eq_true] at h2
      rw [h2] at h
      simp at h

/-- Witness for the amended C3 at the concrete one-building cascade. -/
theorem C3_witness :
    ∃ t1 t2 t3,
      [DelAct.save_deliverypoint_silver [],
       DelAct.delete_bronze "deliverypoint" "DP1.json",
       DelAct.save_invoice_silver [],
       DelAct.delete_bronze "invoice" "I1.json",
       DelAct.save_building_silver [],
       DelAct.delete_bronze "building" "B1.json"]
        = t1 ++ t2 ++ t3 ++
          [DelAct.save_building_silver
             (([⟨"B1", "r"⟩] : List BldRowS).filter
               (fun r => !decide (r.id_building_primaire = "B1"))),
           DelAct.delete_bronze "building" ("B1" ++ ".json")] ∧
      (∀ a ∈ t1, isDPRemoval a = true) ∧
      (∀ a ∈ t2, isInvoiceDeletion a = true) ∧
      (∀ a ∈ t3, isUsageDeletion a = true) :=
  C3_amended_cascade_order "B1" [⟨"B1", "r"⟩] [⟨"DP1", "B1", "r"⟩]
    [⟨"I1", "DP1", "r"⟩] [] _ 1 1 0 rfl

/-! ## Gap-filler facts -/

lemma dd_have_mem {df : List DDRow} {station : String} {r : DDRow}
    (hr : r ∈ df) (hst : r.station_id = some station) :
    pyStr r.period_month ∈ dd_have df station := by
  unfold dd_have
  have hdfne : ¬df.isEmpty = true := by
    rw [List.isEmpty_iff]
    rintro rfl
    simp at hr
  rw [if_neg hdfne]
  have hrsub : r ∈ df.filter (fun r => decide (r.station_id = some station)) :=
    List.mem_filter.mpr ⟨hr, by simp [hst]⟩
  have hsubne : ¬(df.filter (fun r => decide (r.station_id = some station))).isEmpty = true := by
    rw [List.isEmpty_iff]
    intro hnil
    rw [hnil] at hrsub
    simp at hrsub
  rw [if_neg hsubne]
  exact List.mem_map.mpr ⟨r, hrsub, rfl⟩

/-- C6: when the silver degree-days table already covers every wanted
month for the station, `ensure_degreedays_for_station` is a no-op: it
returns with an empty effect trace — in particular zero provider calls
and zero bronze writes. -/
theorem C6_gap_fill_noop :
    ∀ (env : DDEnv) (station : String) (ref_start : PyDate)
      (ref_end : Option PyDate) (today : PyDate) (df : List DDRow),
      env.loadSilver = .ok df →
      (∀ m ∈ list_months_between ref_start (ref_end.getD today),
        ∃ r ∈ df, r.station_id = some station ∧ pyStr r.period_month = m) →
      ensure_degreedays_for_station env station ref_start ref_end today = .ok [] := by
  intro env station rs re today df hload hcov
  have hmiss : dd_missing df station (list_months_between rs (re.getD today)) = [] := by
    unfold dd_missing
    have hfilter : (list_months_between rs (re.getD today)).dedup.filter
        (fun m => !decide (m ∈ dd_have df station)) = [] := by
      rw [List.filter_eq_nil_iff]
      intro m hm
      have hmem : m ∈ list_months_between rs (re.getD today) := List.mem_dedup.mp hm
      rcases hcov m hmem with ⟨r, hr, hst, hpm⟩
      have hdd : m ∈ dd_have df station := hpm ▸ dd_have_mem hr hst
      simp [hdd]
    rw [hfilter]
    rfl
  unfold ensure_degreedays_for_station ensure_body
  simp only [hload, hmiss]

/-- Witness for C6: a fully covered one-month reference range makes
zero provider calls and zero writes. -/
theorem C6_witness :
    ensure_degreedays_for_station
      ⟨.ok [⟨some "S", none, none, some "2024-01", some "hdd", some 18, some 1, some 1⟩],
       fun _ _ _ => .error "unexpected provider call",
       fun _ _ => .error "unexpected bronze write",
       .ok ()⟩
      "S" ⟨2024, 1, 1⟩ (some ⟨2024, 1, 20⟩) ⟨2024, 1, 25⟩ = .ok [] := by
  refine C6_gap_fill_noop _ "S" ⟨2024, 1, 1⟩ (some ⟨2024, 1, 20⟩) ⟨2024, 1, 25⟩
    [⟨some "S", none, none, some "2024-01", some "hdd", some 18, some 1, some 1⟩]
    rfl ?_
  intro m hm
  refine ⟨⟨some "S", none, none, some "2024-01", some "hdd", some 18, some 1, some 1⟩,
    List.mem_singleton.mpr rfl, rfl, ?_⟩
  have : m = "2024-01" := by
    have h12 : list_months_between ⟨2024, 1, 1⟩ ((some (⟨2024, 1, 20⟩ : PyDate)).getD ⟨2024, 1, 25⟩)
        = ["2024-01"] := by decide
    rw [h12] at hm
    exact List.mem_singleton.mp hm
  rw [this]
  rfl

/-- Every event the write loop appends is a bronze write of one of its
groups (attempted writes included). -/
lemma writeLoop_trace (env : DDEnv) (station : String) :
    ∀ (gs : List (String × List ProviderRow)) (tr : List DDEvent),
      ∃ ex, (writeLoop env station gs tr).1 = tr ++ ex ∧
        ∀ e ∈ ex, ∃ g ∈ gs, ∃ ent fn y m,
          e = DDEvent.bronzeWrite ent fn station y m g.2 := by
  intro gs
  induction gs with
  | nil =>
    intro tr
    exact ⟨[], by simp [writeLoop], by simp⟩
  | cons g gs ih =>
    intro tr
    rcases g with ⟨mk, rows⟩
    rw [writeLoop]
    rcases hsplit : splitOnChar '-' mk.data with _ | ⟨a, _ | ⟨b, _ | ⟨c, t⟩⟩⟩
    · simp only [hsplit]
      rcases ih tr with ⟨ex, hex, hprop⟩
      exact ⟨ex, hex, fun e he =>
        (hprop e he).elim (fun g2 hg2 => ⟨g2, List.mem_cons_of_mem _ hg2.1, hg2.2⟩)⟩
    · simp only [hsplit]
      rcases ih tr with ⟨ex, hex, hprop⟩
      exact ⟨ex, hex, fun e he =>
        (hprop e he).elim (fun g2 hg2 => ⟨g2, List.mem_cons_of_mem _ hg2.1, hg2.2⟩)⟩
    · simp only [hsplit]
      rcases hy : parseDigits a with _ | y
      · simp only [hy]
        exact ⟨[], by simp, by simp⟩
      · rcases hm : parseDigits b with _ | m
        · simp only [hy, hm]
          exact ⟨[], by simp, by simp⟩
        · simp only [hy, hm]
          rcases hw : env.writeBronze ("degreedays/" ++ String.mk a ++ "/" ++ String.mk b)
              ("dd_" ++ station ++ "_" ++ String.mk a ++ "_" ++ String.mk b ++ ".json")
            with e | u
          · simp only [hw]
            refine ⟨[DDEvent.bronzeWrite ("degreedays/" ++ String.mk a ++ "/" ++ String.mk b)
              ("dd_" ++ station ++ "_" ++ String.mk a ++ "_" ++ String.mk b ++ ".json")
              station y m rows], rfl, ?_⟩
            intro e2 he2
            rcases List.mem_singleton.mp he2 with rfl
            exact ⟨(mk, rows), List.mem_cons_self .., _, _, y, m, rfl⟩
          · simp only [hw]
            rcases ih (tr ++ [DDEvent.bronzeWrite
                ("degreedays/" ++ String.mk a ++ "/" ++ String.mk b)
                ("dd_" ++ station ++ "_" ++ String.mk a ++ "_" ++ String.mk b ++ ".json")
                station y m rows]) with ⟨ex, hex, hprop⟩
            refine ⟨DDEvent.bronzeWrite ("degreedays/" ++ String.mk a ++ "/" ++ String.mk b)
              ("dd_" ++ station ++ "_" ++ String.mk a ++ "_" ++ String.mk b ++ ".json")
              station y m rows :: ex, by rw [hex, List.append_assoc]; rfl, ?_⟩
            intro e2 he2
            rcases List.mem_cons.mp he2 with rfl | he2
            · exact ⟨(mk, rows), List.mem_cons_self .., _, _, y, m, rfl⟩
            · rcases hprop e2 he2 with ⟨g2, hg2, hrest⟩
              exact ⟨g2, List.mem_cons_of_mem _ hg2, hrest⟩
    · simp only [hsplit]
      rcases ih tr with ⟨ex, hex, hprop⟩
      exact ⟨ex, hex, fun e he =>
        (hprop e he).elim (fun g2 hg2 => ⟨g2, List.mem_cons_of_mem _ hg2.1, hg2.2⟩)⟩

/-- The body never emits a `logFail` event: that log line only exists
in the global exception handler. -/
lemma ensure_body_no_logFail (env : DDEnv) (station : String) (ref_start : PyDate)
    (ref_end : Option PyDate) (today : PyDate) :
    ∀ s m, DDEvent.logFail s m ∉ (ensure_body env station ref_start ref_end today).1 := by
  intro s m
  unfold ensure_body
  rcases hload : env.loadSilver with e | df
  · simp [hload]
  · simp only [hload]
    rcases hmiss : dd_missing df station
        (list_months_between ref_start (ref_end.getD today)) with _ | ⟨m0, ms⟩
    · simp
    · simp only []
      rcases hp0 : parseMonth m0 with _ | ⟨y1, m1⟩
      · simp [hp0]
      · rcases hpL : parseMonth ((m0 :: ms).getLast (List.cons_ne_nil m0 ms)) with _ | ⟨y2, m2⟩
        · simp [hp0, hpL]
        · simp only [hp0, hpL]
          rcases hprov : env.provider station ⟨y1, m1, 1⟩ ⟨y2, m2, monthrange_days y2 m2⟩
            with e | data
          · simp [hprov]
          · simp only [hprov]
            by_cases hdata : data.isEmpty
            · simp [hdata]
            · simp only [hdata, Bool.false_eq_true, if_false]
              rcases writeLoop_trace env station (groupByMonth data (m0 :: ms))
                  [DDEvent.logMissing station (m0 :: ms),
                   DDEvent.providerCall station ⟨y1, m1, 1⟩ ⟨y2, m2, monthrange_days y2 m2⟩]
                with ⟨ex, hex, hprop⟩
              have hnot : DDEvent.logFail s m ∉
                  (writeLoop env station (groupByMonth data (m0 :: ms))
                    [DDEvent.logMissing station (m0 :: ms),
                     DDEvent.providerCall station ⟨y1, m1, 1⟩
                       ⟨y2, m2, monthrange_days y2 m2⟩]).1 := by
                rw [hex]
                intro hmem
                rcases List.mem_append.mp hmem with h | h
                · simp at h
                · rcases hprop _ h with ⟨g2, _, ent, fn, y, mm, heq⟩
                  exact DDEvent.noConfusion heq
              split
              · exact hnot
              · split
                · intro hmem
                  rcases List.mem_append.mp hmem with h | h
                  · exact hnot h
                  · simp at h
                · intro hmem
                  rcases List.mem_append.mp hmem with h | h
                  · exact hnot h
                  · simp at h

/-- C2: `ensure_degreedays_for_station` always returns normally,
whatever storage and the weather provider do (including raising): the
body's exception, if any, is classified by the handler — a message
matching the provider's insufficient-coverage condition is absorbed
silently (no log event at all, since the body itself never emits a
`logFail`), any other exception appends exactly one brief `logFail`
event and is absorbed. -/
theorem C2_ensure_never_raises :
    ∀ (env : DDEnv) (station : String) (ref_start : PyDate)
      (ref_end : Option PyDate) (today : PyDate),
      ∃ tr, ensure_degreedays_for_station env station ref_start ref_end today = .ok tr ∧
        (∀ s m, DDEvent.logFail s m ∉ (ensure_body env station ref_start ref_end today).1) ∧
        ((ensure_body env station ref_start ref_end today).2 = none →
          tr = (ensure_body env station ref_start ref_end today).1) ∧
        (∀ msg, (ensure_body env station ref_start ref_end today).2 = some msg →
          (isCoverageError msg = true →
            tr = (ensure_body env station ref_start ref_end today).1) ∧
          (isCoverageError msg = false →
            tr = (ensure_body env station ref_start ref_end today).1
              ++ [DDEvent.logFail station msg])) := by
  intro env station rs re today
  rcases hres : (ensure_body env station rs re today).2 with _ | msg
  · refine ⟨(ensure_body env station rs re today).1, ?_,
      ensure_body_no_logFail env station rs re today, fun _ => rfl, ?_⟩
    · unfold ensure_degreedays_for_station
      simp only [hres]
    · intro msg hmsg
      exact absurd hmsg (by simp)
  · by_cases hcov : isCoverageError msg
    · refine ⟨(ensure_body env station rs re today).1, ?_,
        ensure_body_no_logFail env station rs re today, ?_, ?_⟩
      · unfold ensure_degreedays_for_station
        simp only [hres, hcov, if_true]
      · intro hnone
        exact absurd hnone (by simp)
      · intro msg2 hmsg2
        rw [Option.some.injEq] at hmsg2
        subst hmsg2
        exact ⟨fun _ => rfl, fun hfalse => absurd hcov (by simp [hfalse])⟩
    · refine ⟨(ensure_body env station rs re today).1 ++ [DDEvent.logFail station msg], ?_,
        ensure_body_no_logFail env station rs re today, ?_, ?_⟩
      · unfold ensure_degreedays_for_station
        rw [Bool.not_eq_true] at hcov
        simp only [hres, hcov, Bool.false_eq_true, if_false]
      · intro hnone
        exact absurd hnone (by simp)
      · intro msg2 hmsg2
        rw [Option.some.injEq] at hmsg2
        subst hmsg2
        rw [Bool.not_eq_true] at hcov
        exact ⟨fun htrue => absurd htrue (by simp [hcov]), fun _ => rfl⟩

/-- Witness for C2 at environments whose storage raises: an unexpected
message is logged and absorbed; a coverage message is absorbed
silently. -/
theorem C2_witness :
    (∃ tr, ensure_degreedays_for_station
        ⟨.error "boom", fun _ _ _ => .ok [], fun _ _ => .ok (), .ok ()⟩
        "S" ⟨2024, 1, 1⟩ none ⟨2024, 1, 2⟩ = .ok tr ∧
      tr = [DDEvent.logFail "S" "boom"]) ∧
    (∃ tr, ensure_degreedays_for_station
        ⟨.error "SourceDataCoverage: not enough data", fun _ _ _ => .ok [],
         fun _ _ => .ok (), .ok ()⟩
        "S" ⟨2024, 1, 1⟩ none ⟨2024, 1, 2⟩ = .ok tr ∧
      tr = []) := by
  constructor
  · rcases C2_ensure_never_raises
      ⟨.error "boom", fun _ _ _ => .ok [], fun _ _ => .ok (), .ok ()⟩
      "S" ⟨2024, 1, 1⟩ none ⟨2024, 1, 2⟩ with ⟨tr, hok, hnolog, hnone, hsome⟩
    refine ⟨tr, hok, ?_⟩
    have h := (hsome "boom" rfl).2 (by decide)
    rw [h]
    rfl
  · rcases C2_ensure_never_raises
      ⟨.error "SourceDataCoverage: not enough data", fun _ _ _ => .ok [],
       fun _ _ => .ok (), .ok ()⟩
      "S" ⟨2024, 1, 1⟩ none ⟨2024, 1, 2⟩ with ⟨tr, hok, hnolog, hnone, hsome⟩
    refine ⟨tr, hok, ?_⟩
    have h := (hsome "SourceDataCoverage: not enough data" rfl).1 (by decide)
    rw [h]
    rfl

lemma padZeros_no_dash (k : Nat) (n : Nat) :
    ∀ c ∈ padZeros k (decDigits n), c ≠ '-' := by
  intro c hc
  unfold padZeros at hc
  rcases List.mem_append.mp hc with h | h
  · rcases List.eq_of_mem_replicate h with rfl
    decide
  · have hd := decDigits_all_digit n c h
    intro hdash
    subst hdash
    simp at hd

/-- Parsing a formatted month string recovers the year/month pair. -/
lemma parseMonth_fmtMonth (y mo : Nat) : parseMonth (fmtMonth y mo) = some (y, mo) := by
  unfold parseMonth fmtMonth
  have hsplit : splitOnChar '-' (padZeros 4 (decDigits y) ++ '-' :: padZeros 2 (decDigits mo))
      = [padZeros 4 (decDigits y), padZeros 2 (decDigits mo)] :=
    splitOnChar_append_sep (padZeros_no_dash 4 y) (padZeros_no_dash 2 mo)
  simp only [hsplit, parseDigits_padZeros_decDigits]

lemma monthsFrom_shape :
    ∀ (fuel y m : Nat), 1 ≤ m → m ≤ 12 →
      ∀ s ∈ monthsFrom fuel y m, ∃ y2 m2, s = fmtMonth y2 m2 ∧ 1 ≤ m2 ∧ m2 ≤ 12 := by
  intro fuel
  induction fuel with
  | zero => intro y m _ _ s hs; simp [monthsFrom] at hs
  | succ f ih =>
    intro y m h1 h2 s hs
    rw [monthsFrom] at hs
    rcases List.mem_cons.mp hs with rfl | hs
    · exact ⟨y, m, rfl, h1, h2⟩
    · by_cases hm : m = 12
      · rw [if_pos hm] at hs
        exact ih (y + 1) 1 (by omega) (by omega) s hs
      · rw [if_neg hm] at hs
        exact ih y (m + 1) (by omega) (by omega) s hs

lemma list_months_between_shape {rs re : PyDate}
    (h1 : 1 ≤ rs.month) (h2 : rs.month ≤ 12) :
    ∀ s ∈ list_months_between rs re, ∃ y2 m2, s = fmtMonth y2 m2 ∧ 1 ≤ m2 ∧ m2 ≤ 12 :=
  monthsFrom_shape _ rs.year rs.month h1 h2

lemma dd_missing_subset_wanted {df : List DDRow} {station : String}
    {wanted : List String} {m : String} (h : m ∈ dd_missing df station wanted) :
    m ∈ wanted := by
  unfold dd_missing at h
  have h2 := (insSort_perm _).mem_iff.mp h
  exact List.mem_dedup.mp (List.mem_filter.mp h2).1

/-- Invariant of the month grouping: every group's key is a missing
month and every row in the group carries exactly that month. -/
lemma groupByMonth_good (data : List ProviderRow) (missing : List String) :
    ∀ g ∈ groupByMonth data missing,
      g.1 ∈ missing ∧ ∀ r ∈ g.2, r.month = some g.1 := by
  have haux : ∀ (gs : List (String × List ProviderRow)) (k : String) (r : ProviderRow),
      (∀ g ∈ gs, g.1 ∈ missing ∧ ∀ x ∈ g.2, x.month = some g.1) →
      k ∈ missing → r.month = some k →
      ∀ g ∈ addGroup gs k r, g.1 ∈ missing ∧ ∀ x ∈ g.2, x.month = some g.1 := by
    intro gs
    induction gs with
    | nil =>
      intro k r _ hk hr g hg
      rcases List.mem_singleton.mp hg with rfl
      refine ⟨hk, ?_⟩
      intro x hx
      rcases List.mem_singleton.mp hx with rfl
      exact hr
    | cons g0 t ih =>
      intro k r hall hk hr g hg
      rcases g0 with ⟨k2, rs⟩
      rw [addGroup] at hg
      by_cases hkk : k2 = k
      · rw [if_pos hkk] at hg
        rcases List.mem_cons.mp hg with rfl | hg
        · have h0 := hall (k2, rs) (List.mem_cons_self ..)
          refine ⟨h0.1, ?_⟩
          intro x hx
          rcases List.mem_append.mp hx with hx | hx
          · exact h0.2 x hx
          · rcases List.mem_singleton.mp hx with rfl
            rw [hr, hkk]
        · exact hall g (List.mem_cons_of_mem _ hg)
      · rw [if_neg hkk] at hg
        rcases List.mem_cons.mp hg with rfl | hg
        · exact hall (k2, rs) (List.mem_cons_self ..)
        · exact ih k r (fun g2 hg2 => hall g2 (List.mem_cons_of_mem _ hg2)) hk hr g hg
  have hmain : ∀ (d : List ProviderRow) (gs : List (String × List ProviderRow)),
      (∀ g ∈ gs, g.1 ∈ missing ∧ ∀ x ∈ g.2, x.month = some g.1) →
      ∀ g ∈ d.foldl
          (fun gs r =>
            match r.month with
            | none => gs
            | some mk =>
              if mk = "" then gs
              else if !decide (mk ∈ missing) then gs
              else addGroup gs mk r)
          gs,
        g.1 ∈ missing ∧ ∀ x ∈ g.2, x.month = some g.1 := by
    intro d
    induction d with
    | nil => intro gs hgs g hg; exact hgs g hg
    | cons r t ih =>
      intro gs hgs g hg
      rw [List.foldl_cons] at hg
      refine ih _ ?_ g hg
      rcases hr : r.month with _ | mk
      · simpa [hr] using hgs
      · simp only [hr]
        by_cases hmk : mk = ""
        · simpa [hmk] using hgs
        · rw [if_neg hmk]
          by_cases hmem : mk ∈ missing
          · have hd : decide (mk ∈ missing) = true := decide_eq_true hmem
            simp only [hd, Bool.not_true, Bool.false_eq_true, if_false]
            exact haux gs mk r hgs hmem hr
          · have hd : decide (mk ∈ missing) = false := decide_eq_false hmem
            simp only [hd, Bool.not_false, if_true]
            exact hgs
  intro g hg
  exact hmain data [] (by simp) g hg

/-- Is this event a provider call? -/
def isProviderCallEvent : DDEvent → Bool
  | .providerCall _ _ _ => true
  | _ => false

/-- When months are missing, the body logs them, then calls the
provider once with the span from the first to the last missing month;
every later event is a bronze write restricted to missing months, or
the rebuild trigger. -/
lemma ensure_body_span (env : DDEnv) (station : String) (ref_start : PyDate)
    (ref_end : Option PyDate) (today : PyDate) (df : List DDRow)
    (m0 : String) (ms : List String) (y1 m1 y2 m2 : Nat)
    (hload : env.loadSilver = .ok df)
    (hmiss : dd_missing df station (list_months_between ref_start (ref_end.getD today))
      = m0 :: ms)
    (hp0 : parseMonth m0 = some (y1, m1))
    (hpL : parseMonth ((m0 :: ms).getLast (List.cons_ne_nil m0 ms)) = some (y2, m2)) :
    ∃ tail, (ensure_body env station ref_start ref_end today).1
        = [DDEvent.logMissing station (m0 :: ms),
           DDEvent.providerCall station ⟨y1, m1, 1⟩
             ⟨y2, m2, monthrange_days y2 m2⟩] ++ tail ∧
      (∀ e ∈ tail, isProviderCallEvent e = false) ∧
      (∀ e ∈ tail, ∀ ent fn st y mth rows,
        e = DDEvent.bronzeWrite ent fn st y mth rows →
        ∀ r ∈ rows, ∃ mk, mk ∈ m0 :: ms ∧ r.month = some mk) := by
  unfold ensure_body
  simp only [hload, hmiss, hp0, hpL]
  rcases hprov : env.provider station ⟨y1, m1, 1⟩ ⟨y2, m2, monthrange_days y2 m2⟩
    with e | data
  · simp only [hprov]
    exact ⟨[], by simp, by simp, by simp⟩
  · simp only [hprov]
    by_cases hdata : data.isEmpty
    · simp only [hdata, if_true]
      exact ⟨[], by simp, by simp, by simp⟩
    · simp only [hdata, Bool.false_eq_true, if_false]
      rcases writeLoop_trace env station (groupByMonth data (m0 :: ms))
          [DDEvent.logMissing station (m0 :: ms),
           DDEvent.providerCall station ⟨y1, m1, 1⟩ ⟨y2, m2, monthrange_days y2 m2⟩]
        with ⟨ex, hex, hprop⟩
      have hexProps :
          (∀ e ∈ ex, isProviderCallEvent e = false) ∧
          (∀ e ∈ ex, ∀ ent fn st y mth rows,
            e = DDEvent.bronzeWrite ent fn st y mth rows →
            ∀ r ∈ rows, ∃ mk, mk ∈ m0 :: ms ∧ r.month = some mk) := by
        constructor
        · intro e he
          rcases hprop e he with ⟨g, hg, ent, fn, y, mth, rfl⟩
          rfl
        · intro e he ent fn st y mth rows heq r hr
          rcases hprop e he with ⟨g, hg, ent2, fn2, yy, mm, rfl⟩
          rw [DDEvent.bronzeWrite.injEq] at heq
          obtain ⟨-, -, -, -, -, hrows⟩ := heq
          rcases groupByMonth_good data (m0 :: ms) g hg with ⟨hgm, hgrows⟩
          exact ⟨g.1, hgm, hgrows r (hrows ▸ hr)⟩
      split
      · exact ⟨ex, hex, hexProps.1, hexProps.2⟩
      · split
        · refine ⟨ex ++ [DDEvent.rebuildSilver],
            by simp only [List.singleton_append]; rw [hex, List.append_assoc], ?_, ?_⟩
          · intro e he
            rcases List.mem_append.mp he with h | h
            · exact hexProps.1 e h
            · rcases List.mem_singleton.mp h with rfl
              rfl
          · intro e he ent fn st y mth rows heq r hr
            rcases List.mem_append.mp he with h | h
            · exact hexProps.2 e h ent fn st y mth rows heq r hr
            · rcases List.mem_singleton.mp h with rfl
              exact absurd heq (by simp)
        · refine ⟨ex ++ [DDEvent.rebuildSilver],
            by simp only [List.singleton_append]; rw [hex, List.append_assoc], ?_, ?_⟩
          · intro e he
            rcases List.mem_append.mp he with h | h
            · exact hexProps.1 e h
            · rcases List.mem_singleton.mp h with rfl
              rfl
          · intro e he ent fn st y mth rows heq r hr
            rcases List.mem_append.mp he with h | h
            · exact hexProps.2 e h ent fn st y mth rows heq r hr
            · rcases List.mem_singleton.mp h with rfl
              exact absurd heq (by simp)

/-- C7: when months are missing for a station, the gap filler calls
the provider exactly once, for the contiguous span from the first
missing month (its first day) to the last missing month (its last
day), and every bronze document it writes contains only rows whose
month is in the missing set. -/
theorem C7_gap_fill_minimal_span :
    ∀ (env : DDEnv) (station : String) (ref_start : PyDate) (ref_end : Option PyDate)
      (today : PyDate) (df : List DDRow) (m0 : String) (ms : List String),
      env.loadSilver = .ok df →
      1 ≤ ref_start.month → ref_start.month ≤ 12 →
      dd_missing df station (list_months_between ref_start (ref_end.getD today))
        = m0 :: ms →
      ∃ tr y1 m1 y2 m2,
        ensure_degreedays_for_station env station ref_start ref_end today = .ok tr ∧
        parseMonth m0 = some (y1, m1) ∧
        parseMonth ((m0 :: ms).getLast (List.cons_ne_nil m0 ms)) = some (y2, m2) ∧
        tr.filter isProviderCallEvent
          = [DDEvent.providerCall station ⟨y1, m1, 1⟩
               ⟨y2, m2, monthrange_days y2 m2⟩] ∧
        (∀ e ∈ tr, ∀ ent fn st y mth rows,
          e = DDEvent.bronzeWrite ent fn st y mth rows →
          ∀ r ∈ rows, ∃ mk, mk ∈ m0 :: ms ∧ r.month = some mk) := by
  intro env station rs re today df m0 ms hload h1 h2 hmiss
  have hm0mem : m0 ∈ dd_missing df station (list_months_between rs (re.getD today)) := by
    rw [hmiss]
    exact List.mem_cons_self ..
  obtain ⟨ya, mb, hfmt0, -, -⟩ :=
    list_months_between_shape h1 h2 m0 (dd_missing_subset_wanted hm0mem)
  have hp0 : parseMonth m0 = some (ya, mb) := by
    rw [hfmt0]
    exact parseMonth_fmtMonth ya mb
  have hLmem : (m0 :: ms).getLast (List.cons_ne_nil m0 ms)
      ∈ dd_missing df station (list_months_between rs (re.getD today)) := by
    rw [hmiss]
    exact List.getLast_mem _
  obtain ⟨yc, md, hfmtL, -, -⟩ :=
    list_months_between_shape h1 h2 _ (dd_missing_subset_wanted hLmem)
  have hpL : parseMonth ((m0 :: ms).getLast (List.cons_ne_nil m0 ms)) = some (yc, md) := by
    rw [hfmtL]
    exact parseMonth_fmtMonth yc md
  obtain ⟨tail, htail, hnoPC, hwrites⟩ :=
    ensure_body_span env station rs re today df m0 ms ya mb yc md hload hmiss hp0 hpL
  have hfil : ((ensure_body env station rs re today).1).filter isProviderCallEvent
      = [DDEvent.providerCall station ⟨ya, mb, 1⟩ ⟨yc, md, monthrange_days yc md⟩] := by
    rw [htail, List.filter_append]
    have htf : tail.filter isProviderCallEvent = [] :=
      List.filter_eq_nil_iff.mpr (fun e he => by simp [hnoPC e he])
    rw [htf]
    rfl
  have hwr : ∀ e ∈ (ensure_body env station rs re today).1,
      ∀ ent fn st y mth rows, e = DDEvent.bronzeWrite ent fn st y mth rows →
      ∀ r ∈ rows, ∃ mk, mk ∈ m0 :: ms ∧ r.month = some mk := by
    intro e he ent fn st y mth rows heq r hr
    rw [htail] at he
    rcases List.mem_append.mp he with h | h
    · rcases List.mem_cons.mp h with rfl | h
      · exact absurd heq (by simp)
      · rcases List.mem_singleton.mp h with rfl
        exact absurd heq (by simp)
    · exact hwrites e h ent fn st y mth rows heq r hr
  rcases hres : (ensure_body env station rs re today).2 with _ | msg
  · refine ⟨(ensure_body env station rs re today).1, ya, mb, yc, md, ?_, hp0, hpL, hfil, hwr⟩
    unfold ensure_degreedays_for_station
    simp only [hres]
  · by_cases hcov : isCoverageError msg
    · refine ⟨(ensure_body env station rs re today).1, ya, mb, yc, md, ?_, hp0, hpL, hfil, hwr⟩
      unfold ensure_degreedays_for_station
      simp only [hres, hcov, if_true]
    · refine ⟨(ensure_body env station rs re today).1 ++ [DDEvent.logFail station msg],
        ya, mb, yc, md, ?_, hp0, hpL, ?_, ?_⟩
      · unfold ensure_degreedays_for_station
        rw [Bool.not_eq_true] at hcov
        simp only [hres, hcov, Bool.false_eq_true, if_false]
      · rw [List.filter_append, hfil]
        rfl
      · intro e he ent fn st y mth rows heq r hr
        rcases List.mem_append.mp he with h | h
        · exact hwr e h ent fn st y mth rows heq r hr
        · rcases List.mem_singleton.mp h with rfl
          exact absurd heq (by simp)

/-- Witness for C7: the spec's example — silver covers 2024-01..06,
the wanted range is 2024-01..08, so the provider is called exactly
once for the span 2024-07-01 .. 2024-08-31. -/
theorem C7_witness :
    ∃ tr y1 m1 y2 m2,
      ensure_degreedays_for_station
          ⟨.ok [⟨some "S", none, none, some "2024-01", some "hdd", some 18, some 1, some 1⟩,
                ⟨some "S", none, none, some "2024-02", some "hdd", some 18, some 1, some 1⟩,
                ⟨some "S", none, none, some "2024-03", some "hdd", some 18, some 1, some 1⟩,
                ⟨some "S", none, none, some "2024-04", some "hdd", some 18, some 1, some 1⟩,
                ⟨some "S", none, none, some "2024-05", some "hdd", some 18, some 1, some 1⟩,
                ⟨some "S", none, none, some "2024-06", some "hdd", some 18, some 1, some 1⟩],
           fun _ _ _ => .ok [], fun _ _ => .ok (), .ok ()⟩
          "S" ⟨2024, 1, 1⟩ (some ⟨2024, 8, 15⟩) ⟨2024, 9, 9⟩ = .ok tr ∧
      parseMonth "2024-07" = some (y1, m1) ∧
      parseMonth (("2024-07" :: ["2024-08"]).getLast
        (List.cons_ne_nil "2024-07" ["2024-08"])) = some (y2, m2) ∧
      tr.filter isProviderCallEvent
        = [DDEvent.providerCall "S" ⟨y1, m1, 1⟩ ⟨y2, m2, monthrange_days y2 m2⟩] ∧
      (∀ e ∈ tr, ∀ ent fn st y mth rows,
        e = DDEvent.bronzeWrite ent fn st y mth rows →
        ∀ r ∈ rows, ∃ mk, mk ∈ "2024-07" :: ["2024-08"] ∧ r.month = some mk) :=
  C7_gap_fill_minimal_span
    ⟨.ok [⟨some "S", none, none, some "2024-01", some "hdd", some 18, some 1, some 1⟩,
          ⟨some "S", none, none, some "2024-02", some "hdd", some 18, some 1, some 1⟩,
          ⟨some "S", none, none, some "2024-03", some "hdd", some 18, some 1, some 1⟩,
          ⟨some "S", none, none, some "2024-04", some "hdd", some 18, some 1, some 1⟩,
          ⟨some "S", none, none, some "2024-05", some "hdd", some 18, some 1, some 1⟩,
          ⟨some "S", none, none, some "2024-06", some "hdd", some 18, some 1, some 1⟩],
     fun _ _ _ => .ok [], fun _ _ => .ok (), .ok ()⟩
    "S" ⟨2024, 1, 1⟩ (some ⟨2024, 8, 15⟩) ⟨2024, 9, 9⟩
    [⟨some "S", none, none, some "2024-01", some "hdd", some 18, some 1, some 1⟩,
     ⟨some "S", none, none, some "2024-02", some "hdd", some 18, some 1, some 1⟩,
     ⟨some "S", none, none, some "2024-03", some "hdd", some 18, some 1, some 1⟩,
     ⟨some "S", none, none, some "2024-04", some "hdd", some 18, some 1, some 1⟩,
     ⟨some "S", none, none, some "2024-05", some "hdd", some 18, some 1, some 1⟩,
     ⟨some "S", none, none, some "2024-06", some "hdd", some 18, some 1, some 1⟩]
    "2024-07" ["2024-08"] rfl (by decide) (by decide) (by decide)
